import Mathlib

/-!
# AzureSphereScience: a shallow embedding of the sensor, framer and aggregation code

The development follows the C sources `bmp180.c`, `geiger.c`, `upload.c` and `main.h`.

* Machine integers are `Int` / `Nat` with explicit wrap-around (`toInt32`, `toUInt32`,
  `toUInt8`).
* Module-level C variables become fields of explicit state records.
* A write outside a fixed-size C array, or a division by zero, is undefined behaviour in C;
  the embedded functions return `none` there.
-/

namespace AzureSphereScience

/-! ## Machine arithmetic -/

/-- Value of an integer after conversion to `int32_t` (two's-complement wrap-around). -/
def toInt32 (x : Int) : Int := (x + 2147483648) % 4294967296 - 2147483648

/-- Value of an integer after conversion to `uint32_t`. -/
def toUInt32 (x : Int) : Int := x % 4294967296

/-- Value of an integer after conversion to `uint8_t`. -/
def toUInt8 (x : Int) : Nat := (x % 256).toNat

/-- C `x >> k` on a signed 32-bit operand: arithmetic shift, i.e. division rounding down. -/
def sar (x : Int) (k : Nat) : Int := x / 2 ^ k

/-- C `x << k` on a 32-bit signed operand, wrapped to 32 bits. -/
def shl32 (x : Int) (k : Nat) : Int := toInt32 (x * 2 ^ k)

/-! ## bmp180.c: calibration data and compensation arithmetic -/

/-- The calibration globals `ac1 .. md` of `bmp180.c` (values of `int16_t` / `uint16_t`). -/
structure Calibration where
  ac1 : Int
  ac2 : Int
  ac3 : Int
  ac4 : Int
  ac5 : Int
  ac6 : Int
  b1 : Int
  b2 : Int
  mb : Int
  mc : Int
  md : Int
deriving DecidableEq, Repr

/-- Embedding of `computeB5`: `none` when the divisor `X1 + md` is zero. -/
def computeB5 (c : Calibration) (UT : Int) : Option Int :=
  let X1 := sar (toInt32 (toInt32 (UT - c.ac6) * c.ac5)) 15
  let d := toInt32 (X1 + c.md)
  if d = 0 then none
  else
    let X2 := toInt32 (Int.tdiv (shl32 c.mc 11) d)
    some (toInt32 (X1 + X2))

/-- The arithmetic of `bmp180_readPressure` after the two raw reads: `UT` and `UP` are the
raw temperature and raw pressure, `oversampling` the stored mode. `none` when a divisor
(`X1 + md` in `computeB5`, or `B4`) is zero. -/
def pressureFromRaw (c : Calibration) (oversampling : Nat) (UT UP : Int) : Option Int :=
  match computeB5 c UT with
  | none => none
  | some B5 =>
    let B6 := toInt32 (B5 - 4000)
    let X1 := sar (toInt32 (c.b2 * sar (toInt32 (B6 * B6)) 12)) 11
    let X2 := sar (toInt32 (c.ac2 * B6)) 11
    let X3 := toInt32 (X1 + X2)
    let B3 := Int.tdiv (toInt32 (shl32 (toInt32 (toInt32 (c.ac1 * 4) + X3)) oversampling + 2)) 4
    let X1 := sar (toInt32 (c.ac3 * B6)) 13
    let X2 := sar (toInt32 (c.b1 * sar (toInt32 (B6 * B6)) 12)) 16
    let X3 := sar (toInt32 (toInt32 (X1 + X2) + 2)) 2
    let B4 := toUInt32 (toUInt32 c.ac4 * toUInt32 (toInt32 (X3 + 32768))) / 2 ^ 15
    let B7 := toUInt32 (toUInt32 (toInt32 (UP - B3)) * toUInt32 (50000 / 2 ^ oversampling))
    if B4 = 0 then none
    else
      let p := if B7 < 2147483648 then toInt32 (toUInt32 (B7 * 2) / B4)
               else toInt32 (toUInt32 ((B7 / B4) * 2))
      let X1 := toInt32 (sar p 8 * sar p 8)
      let X1 := sar (toInt32 (X1 * 3038)) 16
      let X2 := sar (toInt32 (-7357 * p)) 16
      some (toInt32 (p + sar (toInt32 (toInt32 (X1 + X2) + 3791)) 4))

/-- The integer part of `bmp180_readTemperature`: `(B5 + 8) >> 4`, in tenths of a degree
(the source then converts to `float` and divides by 10). -/
def temperatureTenths (c : Calibration) (UT : Int) : Option Int :=
  (computeB5 c UT).map fun B5 => sar (toInt32 (B5 + 8)) 4

/-- Calibration constants of the datasheet's worked example (the values the source assigns
under `BMP180_DEBUG == 1`; `mb` is not used by the arithmetic). -/
def datasheetCalibration : Calibration :=
  { ac1 := 408, ac2 := -72, ac3 := -14383, ac4 := 32741, ac5 := 32757, ac6 := 23153,
    b1 := 6190, b2 := 4, mb := 0, mc := -8711, md := 2868 }

/-! ## main.h: the shared data block -/

/-- Number of entries of `pressureSamples` in `datablock_t`. -/
def pressureSamplesSize : Nat := 1024

/-- Embedding of `datablock_t`: `cpm` and `cpmMessagesReceived` are `uint8_t`,
`pressureSamples` is the array `uint32_t[1024]`, `pressureSamplesReceived` is `uint32_t`. -/
structure DataBlock where
  cpm : Nat
  cpmMessagesReceived : Nat
  pressureSamples : List Nat
  pressureSamplesReceived : Nat
deriving DecidableEq, Repr

/-- The static initialiser of `dataBlock` in `main.c`. -/
def DataBlock.init : DataBlock :=
  { cpm := 0, cpmMessagesReceived := 0,
    pressureSamples := List.replicate pressureSamplesSize 0, pressureSamplesReceived := 0 }

/-! ## geiger.c: the UART framer -/

/-- Size of `messageBuffer`. -/
def messageBufferSize : Nat := 1024

/-- The constant `receiveBufferSize`: the most bytes one `read` returns. -/
def receiveBufferSize : Nat := 256

/-- Byte value of the delimiter `','`. -/
def comma : Nat := 44

/-- Byte value of `'\n'`. -/
def newline : Nat := 10

/-- The module variables of `geiger.c` that `UartEventHandler` uses, with the data block
that `dataBlock` points to. -/
structure GeigerState where
  messageBuffer : List Nat
  messageBytesReceived : Nat
  dataBlock : DataBlock
deriving DecidableEq, Repr

/-- State of the module before any byte arrived. -/
def GeigerState.init : GeigerState :=
  { messageBuffer := List.replicate messageBufferSize 0, messageBytesReceived := 0,
    dataBlock := DataBlock.init }

/-- The `n` bytes that `strncpy (dst, src, n)` stores at `dst`: the bytes of `src` before its
first NUL (at most `n`), then NUL padding up to `n` bytes. -/
def strncpyBytes (src : List Nat) (n : Nat) : List Nat :=
  let pre := (src.take n).takeWhile (fun b => b != 0)
  pre ++ List.replicate (n - pre.length) 0

/-- Contents of an array after storing `bytes` from index `off` on. -/
def writeAt (buf : List Nat) (off : Nat) (bytes : List Nat) : List Nat :=
  buf.take off ++ bytes ++ buf.drop (off + bytes.length)

/-- The C string that starts at the first byte of `mem`: the bytes before the first NUL. -/
def cString (mem : List Nat) : List Nat := mem.takeWhile (fun b => b != 0)

/-- Result of one call of `strtok (_, ",")` on the string `s` at the scan position:
`token` is the returned token (`none` for `NULL`), `scanned` the memory that now precedes
the saved position (the delimiter that ended the token overwritten by NUL), and `rest` the
string at the saved position. -/
structure StrtokResult where
  token : Option (List Nat)
  scanned : List Nat
  rest : List Nat
deriving DecidableEq, Repr

/-- Embedding of the C library's `strtok` with the delimiter set `","`. -/
def strtok (s : List Nat) : StrtokResult :=
  let lead := s.takeWhile (fun b => b == comma)
  let s1 := s.dropWhile (fun b => b == comma)
  if s1 = [] then { token := none, scanned := s, rest := [] }
  else
    let tok := s1.takeWhile (fun b => b != comma)
    match s1.dropWhile (fun b => b != comma) with
    | [] => { token := some tok, scanned := s, rest := [] }
    | _ :: rest => { token := some tok, scanned := lead ++ tok ++ [0], rest := rest }

/-- C library `isspace` in the "C" locale. -/
def isspace (c : Nat) : Bool := c == 32 || (9 ≤ c && c ≤ 13)

/-- C library `isdigit`. -/
def isdigit (c : Nat) : Bool := 48 ≤ c && c ≤ 57

/-- The digit loop of `atoi`. -/
def atoiDigits (acc : Int) : List Nat → Int
  | [] => acc
  | c :: cs => if isdigit c then atoiDigits (10 * acc + ((c : Int) - 48)) cs else acc

/-- Embedding of the C library's `atoi` on the bytes of a string: white space is skipped, an
optional sign is read, then the leading decimal digits; no digit gives 0. The value is the
mathematical one (it is the C result whenever that fits in an `int`). -/
def atoi (s : List Nat) : Int :=
  match s.dropWhile isspace with
  | 45 :: cs => - atoiDigits 0 cs
  | 43 :: cs => atoiDigits 0 cs
  | cs => atoiDigits 0 cs

/-- The four `strtok` calls of `UartEventHandler` on the string `s`: the token returned by
the fourth call and the bytes that the calls leave in place of `s`. -/
def fourthToken (s : List Nat) : Option (List Nat) × List Nat :=
  let r1 := strtok s
  let r2 := strtok r1.rest
  let r3 := strtok r2.rest
  let r4 := strtok r3.rest
  (r4.token, r1.scanned ++ r2.scanned ++ r3.scanned ++ r4.scanned ++ r4.rest)

/-- The body of `if (token) { ... }` in `UartEventHandler`. -/
def latch (db : DataBlock) (token : Option (List Nat)) : DataBlock :=
  match token with
  | none => db
  | some t =>
    { db with cpm := toUInt8 (atoi t),
              cpmMessagesReceived := (db.cpmMessagesReceived + 1) % 256 }

/-- Embedding of `UartEventHandler`. `bytesRead` is the outcome of `read`: `none` for `-1`,
otherwise the bytes received (between 0 and `receiveBufferSize` of them). The result is
`none` when the handler stores a byte outside `messageBuffer`. -/
def UartEventHandler (s : GeigerState) (bytesRead : Option (List Nat)) : Option GeigerState :=
  match bytesRead with
  | none => some s
  | some receiveBuffer =>
    let n := receiveBuffer.length
    if n = 0 then some s
    else if messageBufferSize < s.messageBytesReceived + n then none
    else
      let buf := writeAt s.messageBuffer s.messageBytesReceived (strncpyBytes receiveBuffer n)
      let received := s.messageBytesReceived + n
      if buf[received - 1]? = some newline then
        if messageBufferSize ≤ received then none
        else
          let buf := buf.set received 0
          let str := cString buf
          let (token, left) := fourthToken str
          some { messageBuffer := left ++ buf.drop str.length,
                 messageBytesReceived := 0,
                 dataBlock := latch s.dataBlock token }
      else
        some { s with messageBuffer := buf, messageBytesReceived := received }

/-- Successive calls of `UartEventHandler`, one per fragment delivered by `read`. -/
def feed (s : GeigerState) : List (List Nat) → Option GeigerState
  | [] => some s
  | f :: fs =>
    match UartEventHandler s (some f) with
    | none => none
    | some s1 => feed s1 fs

/-- The count-rate values that successive calls of `UartEventHandler` latch, in order. A
call has latched a value exactly when it changed the message tally. -/
def recordedValues (s : GeigerState) : List (List Nat) → Option (List Nat)
  | [] => some []
  | f :: fs =>
    match UartEventHandler s (some f) with
    | none => none
    | some t =>
      match recordedValues t fs with
      | none => none
      | some vs =>
        if t.dataBlock.cpmMessagesReceived = s.dataBlock.cpmMessagesReceived then some vs
        else some (t.dataBlock.cpm :: vs)

/-! ## upload.c: the rollover -/

/-- Embedding of `qsort_comp`: both elements are read through an `int` pointer, so the
stored `uint32_t` values are compared as signed 32-bit integers. -/
def qsort_comp (elem1 elem2 : Nat) : Int :=
  let f := toInt32 elem1
  let s := toInt32 elem2
  if f > s then 1 else if f < s then -1 else 0

/-- The order that `qsort` establishes with `qsort_comp`: `a` may precede `b`. -/
def compLe (a b : Nat) : Prop := qsort_comp a b ≤ 0

instance compLeDecidable : DecidableRel compLe := fun a b =>
  inferInstanceAs (Decidable (qsort_comp a b ≤ 0))

/-- The C library's `qsort` with `qsort_comp`: the array in ascending order of the
comparator. The library leaves the algorithm open; the embedding computes with insertion
sort, and `qsort_unique` shows that every sorted rearrangement is this list. -/
def qsort (l : List Nat) : List Nat := l.insertionSort compLe

/-- What one rollover hands to `SendToLogstash`: the count rate printed into the `cpm`
payload and the median printed into the `pressure` payload (`none`: no payload). The
`sea_level_pressure` field, computed in floating point, is left out. -/
structure Upload where
  cpm : Option Nat
  pressure : Option Nat
deriving DecidableEq, Repr

/-- Embedding of `UploadTimerEventHandler` on the data block. `consumed` tells whether
`ConsumeEventLoopTimerEvent` returned 0. The result is `none` when `qsort` is asked to
sort more elements than `pressureSamples` has. -/
def UploadTimerEventHandler (db : DataBlock) (consumed : Bool) : Option (DataBlock × Upload) :=
  if !consumed then some (db, { cpm := none, pressure := none })
  else
    let cpmOut := if 59 ≤ db.cpmMessagesReceived then some db.cpm else none
    let n := db.pressureSamplesReceived
    if 590 ≤ n then
      if pressureSamplesSize < n then none
      else
        let samples := qsort (db.pressureSamples.take n) ++ db.pressureSamples.drop n
        some ({ db with cpmMessagesReceived := 0, pressureSamples := samples,
                        pressureSamplesReceived := 0 },
              { cpm := cpmOut, pressure := samples[n / 2]? })
    else
      some ({ db with cpmMessagesReceived := 0, pressureSamplesReceived := 0 },
            { cpm := cpmOut, pressure := none })

/-! ## bmp180.c: the poll tick -/

/-- Value of `EBUSY`. -/
def EBUSY : Int := 16

/-- Value of `ENXIO`. -/
def ENXIO : Int := 6

/-- Embedding of `I2cTimerEventHandler` on the data block. `consumed` tells whether
`ConsumeEventLoopTimerEvent` returned 0, `reading` is the result of `bmp180_readPressure ()`
(`none` when its arithmetic divides by zero) and `errno` the value of `errno` after that
call; the start-up retry and the bus traffic of the tick act on the data block only through
these. The result is `none` when the sample is stored outside `pressureSamples`. -/
def I2cTimerEventHandler (db : DataBlock) (consumed : Bool) (reading : Option Int)
    (errno : Int) : Option DataBlock :=
  if !consumed then some db
  else
    match reading with
    | none => none
    | some r =>
      let pressure := (toUInt32 r).toNat
      if errno = EBUSY ∨ errno = ENXIO then some db
      else if pressureSamplesSize ≤ db.pressureSamplesReceived then none
      else
        some { db with
          pressureSamples := db.pressureSamples.set db.pressureSamplesReceived pressure,
          pressureSamplesReceived := (db.pressureSamplesReceived + 1) % 4294967296 }

/-- One callback of the event loop that touches the pressure window. -/
inductive WindowEvent where
  | tick (consumed : Bool) (reading : Option Int) (errno : Int)
  | rollover (consumed : Bool)
deriving DecidableEq, Repr

/-- The data block after a sequence of poll ticks and rollovers, in the order given. -/
def runWindow (db : DataBlock) : List WindowEvent → Option DataBlock
  | [] => some db
  | WindowEvent.tick c r e :: es =>
    match I2cTimerEventHandler db c r e with
    | none => none
    | some db1 => runWindow db1 es
  | WindowEvent.rollover c :: es =>
    match UploadTimerEventHandler db c with
    | none => none
    | some (db1, _) => runWindow db1 es

/-! ## bmp180.c: bus access, start-up and the whole poll tick -/

/-- Outcome of one call into the I2C library: success with the data transferred, or
failure, which stores a value in `errno`. A successful call leaves `errno` as it was. -/
inductive BusOutcome (α : Type) where
  | ok (value : α)
  | fail (errno : Int)

/-- Embedding of `read8`: the byte returned and the value of `errno` afterwards. The result
of `I2CMaster_WriteThenRead` is not tested; after a failed call `ret` still holds 0. -/
def read8 (errno : Int) (o : BusOutcome Nat) : Nat × Int :=
  match o with
  | BusOutcome.ok v => (v % 256, errno)
  | BusOutcome.fail e => (0, e)

/-- Embedding of `read16`: `(uint16_t)(retbuf[1] | (retbuf[0] << 8))` and the value of
`errno` afterwards; after a failed call `retbuf` still holds two zero bytes. -/
def read16 (errno : Int) (o : BusOutcome (Nat × Nat)) : Nat × Int :=
  match o with
  | BusOutcome.ok (b0, b1) => (((b1 % 256) ||| ((b0 % 256) <<< 8)) % 65536, errno)
  | BusOutcome.fail e => (0, e)

/-- Embedding of `write8`: the value of `errno` afterwards. -/
def write8 (errno : Int) (o : BusOutcome Unit) : Int :=
  match o with
  | BusOutcome.ok _ => errno
  | BusOutcome.fail e => e

/-- Value of an integer after conversion to `int16_t`. -/
def toInt16 (x : Int) : Int := (x + 32768) % 65536 - 32768

/-- The constant `BMP180_ULTRAHIGHRES`. -/
def BMP180_ULTRAHIGHRES : Nat := 3

/-- The enumerator `ExitCode_Init_OpenMaster` of `main.h`. -/
def ExitCode_Init_OpenMaster : Int := 600

/-- The enumerator `ExitCode_Init_SetBusSpeed` of `main.h`. -/
def ExitCode_Init_SetBusSpeed : Int := 601

/-- The enumerator `ExitCode_Init_SetTimeout` of `main.h`. -/
def ExitCode_Init_SetTimeout : Int := 602

/-- Conversion of an integer to C `bool`, as a `return` in a function of type `bool`
performs it: every value other than 0 becomes `true`. -/
def boolOfInt (x : Int) : Bool := x != 0

/-- The module variables of `bmp180.c`, with `errno`. -/
structure Bmp180State where
  oversampling : Nat
  initialized : Bool
  calibration : Calibration
  i2cFd : Int
  errno : Int
deriving DecidableEq, Repr

/-- The static initial values of the module variables: calibration all zero, not
initialised, no file descriptor. -/
def Bmp180State.init : Bmp180State :=
  { oversampling := 0, initialized := false,
    calibration := { ac1 := 0, ac2 := 0, ac3 := 0, ac4 := 0, ac5 := 0, ac6 := 0,
                     b1 := 0, b2 := 0, mb := 0, mc := 0, md := 0 },
    i2cFd := -1, errno := 0 }

/-- What the bus answers during one call of `bmp180_begin`: the outcome of
`I2CMaster_Open` (the file descriptor), of `I2CMaster_SetBusSpeed`, of
`I2CMaster_SetTimeout`, of the read of the identity register `0xD0`, and of the 16-bit
read of each calibration register, by register address. -/
structure BeginBus where
  openMaster : BusOutcome Int
  setBusSpeed : BusOutcome Unit
  setTimeout : BusOutcome Unit
  chipId : BusOutcome Nat
  calibration : Nat → BusOutcome (Nat × Nat)

/-- The reads of the eleven calibration registers in `bmp180_begin`, in source order, with
`errno` handed from one read to the next. -/
def readCalibration (errno : Int) (bus : BeginBus) : Calibration × Int :=
  let ac1 := read16 errno (bus.calibration 0xAA)
  let ac2 := read16 ac1.2 (bus.calibration 0xAC)
  let ac3 := read16 ac2.2 (bus.calibration 0xAE)
  let ac4 := read16 ac3.2 (bus.calibration 0xB0)
  let ac5 := read16 ac4.2 (bus.calibration 0xB2)
  let ac6 := read16 ac5.2 (bus.calibration 0xB4)
  let b1 := read16 ac6.2 (bus.calibration 0xB6)
  let b2 := read16 b1.2 (bus.calibration 0xB8)
  let mb := read16 b2.2 (bus.calibration 0xBA)
  let mc := read16 mb.2 (bus.calibration 0xBC)
  let md := read16 mc.2 (bus.calibration 0xBE)
  ({ ac1 := toInt16 ac1.1, ac2 := toInt16 ac2.1, ac3 := toInt16 ac3.1,
     ac4 := ac4.1, ac5 := ac5.1, ac6 := ac6.1,
     b1 := toInt16 b1.1, b2 := toInt16 b2.1,
     mb := toInt16 mb.1, mc := toInt16 mc.1, md := toInt16 md.1 }, md.2)

/-- Embedding of `bmp180_begin`: the `bool` returned and the module variables afterwards.
The three early `return ExitCode_...;` statements return an enumerator of `ExitCode` from
a function of type `bool`. -/
def bmp180_begin (s : Bmp180State) (mode : Nat) (bus : BeginBus) : Bool × Bmp180State :=
  let mode := if BMP180_ULTRAHIGHRES < mode then BMP180_ULTRAHIGHRES else mode
  let s := { s with oversampling := mode }
  let opened : Int × Int :=
    match bus.openMaster with
    | BusOutcome.ok fd => (fd, s.errno)
    | BusOutcome.fail e => (-1, e)
  let s := { s with i2cFd := opened.1, errno := opened.2 }
  if s.i2cFd = -1 then (boolOfInt ExitCode_Init_OpenMaster, s)
  else
    match bus.setBusSpeed with
    | BusOutcome.fail e => (boolOfInt ExitCode_Init_SetBusSpeed, { s with errno := e })
    | BusOutcome.ok _ =>
      match bus.setTimeout with
      | BusOutcome.fail e => (boolOfInt ExitCode_Init_SetTimeout, { s with errno := e })
      | BusOutcome.ok _ =>
        let id := read8 s.errno bus.chipId
        if id.1 ≠ 0x55 then (false, { s with errno := id.2 })
        else
          let cal := readCalibration id.2 bus
          (true, { s with calibration := cal.1, errno := cal.2 })

/-- What the bus answers during one call of `bmp180_readPressure`: the outcomes of the
write that starts the temperature conversion, of the 16-bit read of the temperature, of the
write that starts the pressure conversion, of the 16-bit read of the pressure and of the
read of the extra byte. -/
structure PressureBus where
  startTemperature : BusOutcome Unit
  temperature : BusOutcome (Nat × Nat)
  startPressure : BusOutcome Unit
  pressure : BusOutcome (Nat × Nat)
  pressureLow : BusOutcome Nat

/-- Embedding of `bmp180_readRawTemperature` (the settle delay left out): the raw value and
`errno` afterwards. -/
def bmp180_readRawTemperature (errno : Int) (bus : PressureBus) : Nat × Int :=
  read16 (write8 errno bus.startTemperature) bus.temperature

/-- The arithmetic of `bmp180_readRawPressure` on the 16-bit value `w` and the extra byte
`x`, in `uint32_t`: `raw = w; raw <<= 8; raw |= x; raw >>= 8 - oversampling`. The result is
`none` when the shift count is not below 32, which needs `oversampling > 8`. -/
def assembleRawPressure (oversampling w x : Nat) : Option Nat :=
  let raw := (w <<< 8) % 4294967296
  let raw := raw ||| x
  if 8 < oversampling then none else some (raw >>> (8 - oversampling))

/-- Embedding of `bmp180_readRawPressure` (the settle delay left out): the raw value and
`errno` afterwards. -/
def bmp180_readRawPressure (oversampling : Nat) (errno : Int) (bus : PressureBus) :
    Option Nat × Int :=
  let w := read16 (write8 errno bus.startPressure) bus.pressure
  let x := read8 w.2 bus.pressureLow
  (assembleRawPressure oversampling w.1 x.1, x.2)

/-- Embedding of `bmp180_readPressure`: the two raw reads, then the compensation
arithmetic `pressureFromRaw`; the result (`none` when undefined) and `errno` afterwards. -/
def bmp180_readPressure (s : Bmp180State) (bus : PressureBus) : Option Int × Int :=
  let ut := bmp180_readRawTemperature s.errno bus
  let up := bmp180_readRawPressure s.oversampling ut.2 bus
  match up.1 with
  | none => (none, up.2)
  | some UP => (pressureFromRaw s.calibration s.oversampling ut.1 (toInt32 UP), up.2)

/-- The whole of `I2cTimerEventHandler`, bus traffic included: when the timer event is
consumed, start-up is retried if `initialized` is false, then `bmp180_readPressure` is
evaluated, whatever `initialized` is now, and the data block is updated as
`I2cTimerEventHandler` describes, from the reading and from `errno` as the calls of this
tick and of earlier ones left it. -/
def pollTick (s : Bmp180State) (db : DataBlock) (consumed : Bool) (startUp : BeginBus)
    (bus : PressureBus) : Option (Bmp180State × DataBlock) :=
  if !consumed then some (s, db)
  else
    let s1 :=
      if s.initialized then s
      else
        let r := bmp180_begin s BMP180_ULTRAHIGHRES startUp
        { r.2 with initialized := r.1 }
    let reading := bmp180_readPressure s1 bus
    match I2cTimerEventHandler db true reading.1 reading.2 with
    | none => none
    | some db1 => some ({ s1 with errno := reading.2 }, db1)

/-- One callback of the event loop that touches the data block: a completed record whose
fourth token is `token` (the effect of `UartEventHandler`), a poll tick, or a rollover. -/
inductive AggregationEvent where
  | message (token : List Nat)
  | tick (consumed : Bool) (reading : Option Int) (errno : Int)
  | rollover (consumed : Bool)
deriving DecidableEq, Repr

/-- What the rollovers among the events hand to `SendToLogstash`, in order. -/
def uploads (db : DataBlock) : List AggregationEvent → Option (List Upload)
  | [] => some []
  | AggregationEvent.message t :: es => uploads (latch db (some t)) es
  | AggregationEvent.tick c r e :: es =>
    match I2cTimerEventHandler db c r e with
    | none => none
    | some db1 => uploads db1 es
  | AggregationEvent.rollover c :: es =>
    match UploadTimerEventHandler db c with
    | none => none
    | some (db1, u) =>
      match uploads db1 es with
      | none => none
      | some us => some (u :: us)

/-! ## Notions of the specification -/

/-- Comma-separated tokens of a text: the non-empty pieces between commas. -/
def tokens (s : List Nat) : List (List Nat) :=
  (s.splitOn comma).filter (fun t => !t.isEmpty)

/-- A record of the count-rate stream: text without NUL whose only newline is its last
byte. -/
def IsRecord (r : List Nat) : Prop :=
  ∃ body, r = body ++ [newline] ∧ ∀ b ∈ body, b ≠ 0 ∧ b ≠ newline

/-- A cutting of the byte sequence `r` into the fragments `fs` that successive `read`
calls return: each fragment is non-empty and at most `receiveBufferSize` bytes long. -/
def IsCutting (fs : List (List Nat)) (r : List Nat) : Prop :=
  fs.flatten = r ∧ ∀ f ∈ fs, f ≠ [] ∧ f.length ≤ receiveBufferSize

/-- The module state is well formed: `messageBuffer` has its declared size. -/
def GeigerState.WellFormed (s : GeigerState) : Prop :=
  s.messageBuffer.length = messageBufferSize

/-- The module state after a complete record `r` has reached `UartEventHandler` from an
empty pending buffer: the tokeniser has run over `r`, and the fourth token, if there is
one, has been latched. -/
def deliver (s : GeigerState) (r : List Nat) : GeigerState :=
  { messageBuffer := (fourthToken r).2 ++ 0 :: s.messageBuffer.drop (r.length + 1),
    messageBytesReceived := 0,
    dataBlock := latch s.dataBlock (fourthToken r).1 }

/-- The count-rate value that a record carries: its fourth comma-separated token read as
an integer and stored in the 8-bit field `cpm`; `none` when there is no fourth token. -/
def recordValue (r : List Nat) : Option Nat :=
  (tokens r)[3]?.map fun t => toUInt8 (atoi t)

/-- Decimal text of a natural number, as byte values. -/
def decimalText (n : Nat) : List Nat :=
  if n = 0 then [48] else (Nat.digits 10 n).reverse.map (fun d => d + 48)

/-- The text starts, after optional white space and an optional sign, with a decimal
digit: it is the text of an integer as `atoi` reads one. -/
def isIntegerText (t : List Nat) : Bool :=
  match t.dropWhile isspace with
  | 45 :: c :: _ => isdigit c
  | 43 :: c :: _ => isdigit c
  | c :: _ => isdigit c
  | [] => false

/-- The median as the specification words it: the element at index `n / 2` of the samples
in ascending order of their unsigned values. -/
def medianUnsigned (window : List Nat) : Option Nat :=
  (window.insertionSort (fun a b => a ≤ b))[window.length / 2]?

/-- The order of stored samples read as signed 32-bit integers. -/
def signedLe (a b : Nat) : Prop := toInt32 a ≤ toInt32 b

instance signedLeDecidable : DecidableRel signedLe := fun a b =>
  inferInstanceAs (Decidable (toInt32 a ≤ toInt32 b))

/-- The record `t1,t2,t3,n` followed by a newline, `n` written in decimal. -/
def countRecord (t1 t2 t3 : List Nat) (n : Nat) : List Nat :=
  t1 ++ comma :: (t2 ++ comma :: (t3 ++ comma :: (decimalText n ++ [newline])))

/-- Two data blocks agree on the current window: same tally, same number of samples, the
same samples received so far, and the same latched value unless no message was tallied. -/
def SameWindow (a b : DataBlock) : Prop :=
  a.cpmMessagesReceived = b.cpmMessagesReceived ∧
  a.pressureSamplesReceived = b.pressureSamplesReceived ∧
  a.pressureSamples.length = pressureSamplesSize ∧
  b.pressureSamples.length = pressureSamplesSize ∧
  a.pressureSamples.take a.pressureSamplesReceived
    = b.pressureSamples.take b.pressureSamplesReceived ∧
  (a.cpm = b.cpm ∨ a.cpmMessagesReceived = 0)

/-- The divisor `X1 + md` of the division in `computeB5`. -/
def computeB5Divisor (c : Calibration) (UT : Int) : Int :=
  toInt32 (sar (toInt32 (toInt32 (UT - c.ac6) * c.ac5)) 15 + c.md)

/-! ## Example data -/

/-- A window of 590 samples, in the order received: 200 samples `0xFFFFFFFF` (the reading
-1 stored as `uint32_t`), 200 samples 5 and 190 samples 7. -/
def wrapWindow : DataBlock :=
  { cpm := 0, cpmMessagesReceived := 0,
    pressureSamples := List.replicate 200 4294967295 ++ List.replicate 200 5
      ++ List.replicate 190 7 ++ List.replicate 434 0,
    pressureSamplesReceived := 590 }

/-- A window with the 590 samples 100000 .. 100589, received in descending order. -/
def rampWindow : DataBlock :=
  { cpm := 0, cpmMessagesReceived := 0,
    pressureSamples := (List.range' 100000 590).reverse ++ List.replicate 434 0,
    pressureSamplesReceived := 590 }

/-- A module state with the value 42 latched, 5 messages tallied and nothing pending. -/
def latchedState : GeigerState :=
  { GeigerState.init with
    dataBlock := { DataBlock.init with cpm := 42, cpmMessagesReceived := 5 } }

/-- A module state with 255 messages tallied and nothing pending. -/
def fullTallyState : GeigerState :=
  { GeigerState.init with
    dataBlock := { DataBlock.init with cpm := 42, cpmMessagesReceived := 255 } }

/-- The bytes of the record `a,b,c,42` with its newline. -/
def record42 : List Nat := [97, 44, 98, 44, 99, 44, 52, 50, 10]

/-- The bytes of the record `a,b,c,300` with its newline. -/
def record300 : List Nat := [97, 44, 98, 44, 99, 44, 51, 48, 48, 10]

/-- The bytes of the record `a,b,c,xyz` with its newline. -/
def recordXyz : List Nat := [97, 44, 98, 44, 99, 44, 120, 121, 122, 10]

/-- The bytes of the record `a,b,c,1` with its newline. -/
def recordOne : List Nat := [97, 44, 98, 44, 99, 44, 49, 10]

/-- The bytes of the record `d,e,f,2` with its newline. -/
def recordTwo : List Nat := [100, 44, 101, 44, 102, 44, 50, 10]

/-- A fragment of 256 bytes `a`, without newline. -/
def fullFragment : List Nat := List.replicate 256 97

/-- A poll tick whose bus traffic succeeded and that read 100000 Pa. -/
def goodTick : WindowEvent := WindowEvent.tick true (some 100000) 0

/-- The module variables after a successful start-up with the datasheet calibration. -/
def runningSensor : Bmp180State :=
  { oversampling := 3, initialized := true, calibration := datasheetCalibration,
    i2cFd := 3, errno := 0 }

/-- A bus on which every call of one `bmp180_readPressure` fails with `EBUSY`. -/
def busyBus : PressureBus :=
  { startTemperature := BusOutcome.fail EBUSY, temperature := BusOutcome.fail EBUSY,
    startPressure := BusOutcome.fail EBUSY, pressure := BusOutcome.fail EBUSY,
    pressureLow := BusOutcome.fail EBUSY }

/-- A bus on which every call of one `bmp180_readPressure` succeeds: raw temperature
`0x6CFA` (27898), pressure bytes `0x5D 0x23` and extra byte 0. -/
def goodBus : PressureBus :=
  { startTemperature := BusOutcome.ok (), temperature := BusOutcome.ok (108, 250),
    startPressure := BusOutcome.ok (), pressure := BusOutcome.ok (93, 35),
    pressureLow := BusOutcome.ok 0 }

/-- A start-up on which `I2CMaster_Open` fails with `ENXIO`. -/
def noBus : BeginBus :=
  { openMaster := BusOutcome.fail ENXIO, setBusSpeed := BusOutcome.fail ENXIO,
    setTimeout := BusOutcome.fail ENXIO, chipId := BusOutcome.fail ENXIO,
    calibration := fun _ => BusOutcome.fail ENXIO }

/-- A start-up on which the bus opens and is configured and the identity register reads
0 instead of `0x55`. -/
def wrongChip : BeginBus :=
  { openMaster := BusOutcome.ok 3, setBusSpeed := BusOutcome.ok (),
    setTimeout := BusOutcome.ok (), chipId := BusOutcome.ok 0,
    calibration := fun _ => BusOutcome.ok (0, 0) }

/-- A start-up on which every step succeeds and every calibration register reads
`0x1234`. -/
def goodChip : BeginBus :=
  { openMaster := BusOutcome.ok 3, setBusSpeed := BusOutcome.ok (),
    setTimeout := BusOutcome.ok (), chipId := BusOutcome.ok 0x55,
    calibration := fun _ => BusOutcome.ok (0x12, 0x34) }

/-- A bus on which the first call of one `bmp180_readPressure` fails with `EBUSY` and the
last one with `ETIMEDOUT` (110); the calls in between succeed. -/
def mixedBus : PressureBus :=
  { startTemperature := BusOutcome.fail EBUSY, temperature := BusOutcome.ok (108, 250),
    startPressure := BusOutcome.ok (), pressure := BusOutcome.ok (93, 35),
    pressureLow := BusOutcome.fail 110 }

/-- A start-up on which the bus opens and `I2CMaster_SetBusSpeed` fails with `EBUSY`. -/
def noBusSpeed : BeginBus := { goodChip with setBusSpeed := BusOutcome.fail EBUSY }

/-- A start-up on which the bus opens, the speed is set and `I2CMaster_SetTimeout` fails
with `EBUSY`. -/
def noTimeout : BeginBus := { goodChip with setTimeout := BusOutcome.fail EBUSY }

theorem strncpyBytes_of_noNul (f : List Nat) (h : ∀ b ∈ f, b ≠ 0) :
    strncpyBytes f f.length = f := by
  have h1 : f.takeWhile (fun b => b != 0) = f := by
    rw [List.takeWhile_eq_self_iff]
    intro b hb
    simpa using h b hb
  simp [strncpyBytes, h1]

theorem writeAt_append (pre f tail : List Nat) :
    writeAt (pre ++ tail) pre.length f = pre ++ f ++ tail.drop f.length := by
  simp [writeAt, List.drop_append]

theorem getElem?_pred_append (pre f tail : List Nat) (hf : f ≠ []) :
    (pre ++ f ++ tail)[pre.length + f.length - 1]? = f.getLast? := by
  have hlen : 0 < f.length := List.length_pos.mpr hf
  rw [List.getElem?_append_left (by simp; omega), List.getElem?_append_right (by omega)]
  rw [List.getLast?_eq_getElem?]
  congr 1
  omega

theorem set_append_length (l tail : List Nat) (x : Nat) :
    (l ++ tail).set l.length x = l ++ tail.set 0 x := by
  rw [List.set_append_right _ _ (le_refl _)]
  simp

theorem cString_append_zero (l tail : List Nat) (h : ∀ b ∈ l, b ≠ 0) :
    cString (l ++ 0 :: tail) = l := by
  unfold cString
  rw [List.takeWhile_append_of_pos]
  · simp
  · intro b hb; simpa using h b hb

/-- A fragment that does not end the record is appended to the pending bytes. -/
theorem UartEventHandler_pending (pre f tail : List Nat) (db : DataBlock)
    (hf : f ≠ []) (h0 : ∀ b ∈ f, b ≠ 0) (hlast : f.getLast? ≠ some newline)
    (hcap : pre.length + f.length ≤ messageBufferSize) :
    UartEventHandler { messageBuffer := pre ++ tail, messageBytesReceived := pre.length,
                       dataBlock := db } (some f)
      = some { messageBuffer := pre ++ f ++ tail.drop f.length,
               messageBytesReceived := pre.length + f.length, dataBlock := db } := by
  have hlen : f.length ≠ 0 := fun h => hf (List.length_eq_zero.mp h)
  simp only [UartEventHandler, hlen, if_false, strncpyBytes_of_noNul f h0, writeAt_append,
    getElem?_pred_append pre f _ hf]
  rw [if_neg (by omega), if_neg hlast]

/-- The fragment that ends the record hands the pending bytes to the tokeniser. -/
theorem UartEventHandler_complete (pre f tail : List Nat) (db : DataBlock)
    (hf : f ≠ []) (h0 : ∀ b ∈ pre ++ f, b ≠ 0) (hlast : f.getLast? = some newline)
    (hcap : pre.length + f.length < messageBufferSize)
    (htail : pre.length + f.length < (pre ++ tail).length) :
    UartEventHandler { messageBuffer := pre ++ tail, messageBytesReceived := pre.length,
                       dataBlock := db } (some f)
      = some { messageBuffer := (fourthToken (pre ++ f)).2
                                  ++ 0 :: tail.drop (f.length + 1),
               messageBytesReceived := 0,
               dataBlock := latch db (fourthToken (pre ++ f)).1 } := by
  have hlen : f.length ≠ 0 := fun h => hf (List.length_eq_zero.mp h)
  have h0f : ∀ b ∈ f, b ≠ 0 := fun b hb => h0 b (List.mem_append_right _ hb)
  have hdrop : tail.drop f.length ≠ [] := by
    intro h
    have := congrArg List.length h
    simp at this htail
    omega
  obtain ⟨x, rest, hx⟩ := List.exists_cons_of_ne_nil hdrop
  have hrest : rest = tail.drop (f.length + 1) := by
    have : (tail.drop f.length).drop 1 = rest := by rw [hx]; rfl
    rw [← this, List.drop_drop]
  simp only [UartEventHandler, hlen, if_false, strncpyBytes_of_noNul f h0f, writeAt_append,
    getElem?_pred_append pre f _ hf]
  rw [if_neg (by omega), if_pos hlast, if_neg (by omega)]
  have hset : (pre ++ f ++ tail.drop f.length).set (pre.length + f.length) 0
      = (pre ++ f) ++ 0 :: rest := by
    have := set_append_length (pre ++ f) (tail.drop f.length) 0
    simp only [List.length_append] at this
    rw [this, hx]
    rfl
  simp only [hset, cString_append_zero _ _ h0]
  simp [hrest]


/-- Feeding the fragments of a cutting of the rest of a record, with the first part of the
record pending, ends with the whole record handed to the tokeniser. -/
theorem feed_rest (body : List Nat) (hbody : ∀ b ∈ body, b ≠ 0 ∧ b ≠ newline)
    (db : DataBlock) (buf0 : List Nat) :
    ∀ (fs : List (List Nat)) (pre : List Nat), fs ≠ [] → (∀ f ∈ fs, f ≠ []) →
      pre ++ fs.flatten = body ++ [newline] →
      pre.length + fs.flatten.length < messageBufferSize →
      buf0.length = messageBufferSize →
      feed { messageBuffer := pre ++ buf0.drop pre.length, messageBytesReceived := pre.length,
             dataBlock := db } fs
        = some { messageBuffer := (fourthToken (body ++ [newline])).2
                   ++ 0 :: buf0.drop (body.length + 1 + 1),
                 messageBytesReceived := 0,
                 dataBlock := latch db (fourthToken (body ++ [newline])).1 } := by
  intro fs
  induction fs with
  | nil => intro pre h; exact absurd rfl h
  | cons f fs ih =>
    intro pre _ hne hcat hcap hbuf
    have hf : f ≠ [] := (hne f (List.mem_cons_self _ _))
    have hne2 : ∀ g ∈ fs, g ≠ [] := fun g hg => hne g (List.mem_cons_of_mem _ hg)
    have hall0 : ∀ b ∈ pre ++ (f :: fs).flatten, b ≠ 0 := by
      intro b hb
      rw [hcat] at hb
      rcases List.mem_append.mp hb with hb | hb
      · exact (hbody b hb).1
      · simp [newline] at hb; omega
    simp only [List.flatten_cons, List.length_append] at hcap hcat hall0
    by_cases hfs : fs = []
    · subst hfs
      simp only [List.flatten_nil, List.append_nil, List.length_nil, Nat.add_zero] at hcat hcap hall0
      have hlast : f.getLast? = some newline := by
        have h1 := congrArg List.getLast? hcat
        rw [List.getLast?_append_of_ne_nil _ hf] at h1
        simpa using h1
      have hlen : pre.length + f.length = body.length + 1 := by
        have := congrArg List.length hcat
        simpa using this
      simp only [feed]
      rw [UartEventHandler_complete pre f _ db hf hall0 hlast hcap
        (by simp [hbuf]; omega)]
      have hd : List.drop (f.length + 1) (List.drop pre.length buf0)
          = List.drop (body.length + 1 + 1) buf0 := by
        rw [List.drop_drop]; congr 1; omega
      rw [hd, hcat]
    · have hfl : fs.flatten ≠ [] := by
        obtain ⟨g, gs, rfl⟩ := List.exists_cons_of_ne_nil hfs
        have := hne2 g (List.mem_cons_self _ _)
        simp [this]
      have hlast : f.getLast? ≠ some newline := by
        intro hl
        obtain ⟨x, xs, hx⟩ := List.exists_cons_of_ne_nil hfl
        have hmem : newline ∈ body := by
          have hl2 : newline ∈ f := List.mem_of_getLast?_eq_some hl
          have h2 : pre ++ f ++ fs.flatten.dropLast ++ [fs.flatten.getLast hfl]
              = body ++ [newline] := by
            rw [List.append_assoc (pre ++ f), List.dropLast_append_getLast, List.append_assoc]
            exact hcat
          have h3 := List.append_inj_left' h2 rfl
          rw [← h3]
          simp [hl2]
        exact (hbody _ hmem).2 rfl
      simp only [feed]
      rw [UartEventHandler_pending pre f _ db hf
        (fun b hb => hall0 b (by simp [hb])) hlast (by omega)]
      have := ih (pre ++ f) hfs hne2 (by simpa using hcat) (by rw [List.length_append]; omega) hbuf
      simp only [List.length_append, List.drop_drop] at this ⊢
      exact this

/-- Every cutting of a record, fed from an empty pending buffer, delivers the record. -/
theorem feed_cutting (r : List Nat) (s : GeigerState) (fs : List (List Nat))
    (hr : IsRecord r) (hlen : r.length < messageBufferSize) (hs : s.WellFormed)
    (hempty : s.messageBytesReceived = 0) (hcut : IsCutting fs r) :
    feed s fs = some (deliver s r) := by
  obtain ⟨body, rfl, hbody⟩ := hr
  obtain ⟨hflat, hfrag⟩ := hcut
  obtain ⟨buf, n, db⟩ := s
  simp only at hempty
  subst hempty
  have hne : fs ≠ [] := by
    rintro rfl
    simp at hflat
  have := feed_rest body hbody db buf fs [] hne (fun f hf => (hfrag f hf).1)
    (by simpa using hflat) (by simpa [hflat] using hlen) hs
  simpa [deliver] using this

/-! ## Lemmas on the tokeniser -/

theorem tokens_nil : tokens [] = [] := by
  simp [tokens, List.splitOn]

theorem tokens_comma_cons (s : List Nat) : tokens (comma :: s) = tokens s := by
  simp [tokens, List.splitOn]

/-- Tokens of a text that starts with a byte other than a comma. -/
theorem tokens_of_token_first (s : List Nat) (hs : s ≠ []) (hc : s.head? ≠ some comma) :
    tokens s = s.takeWhile (fun b => b != comma)
                 :: tokens ((s.dropWhile (fun b => b != comma)).drop 1) := by
  have hsplit := List.takeWhile_append_dropWhile (fun b => b != comma) s
  have htok : ∀ x ∈ s.takeWhile (fun b => b != comma), ¬ ((fun b => b == comma) x) = true := by
    intro x hx
    have := List.mem_takeWhile_imp hx
    simpa using this
  have hne : s.takeWhile (fun b => b != comma) ≠ [] := by
    obtain ⟨c, cs, rfl⟩ := List.exists_cons_of_ne_nil hs
    have : c ≠ comma := by simpa using hc
    simp [List.takeWhile_cons, this]
  cases hd : s.dropWhile (fun b => b != comma) with
  | nil =>
    rw [hd, List.append_nil] at hsplit
    have h1 : s.splitOnP (fun b => b == comma) = [s] := by
      apply List.splitOnP_eq_single
      intro x hx
      rw [← hsplit] at hx
      exact htok x hx
    have hs2 : s.isEmpty = false := by
      cases s with
      | nil => exact absurd rfl hs
      | cons _ _ => rfl
    unfold tokens List.splitOn
    rw [h1, hsplit]
    simp [hs2]
  | cons c rest =>
    have hcc : c = comma := by
      have := List.head_dropWhile_not (fun b => b != comma) s (by rw [hd]; simp)
      simp [hd] at this
      exact this
    subst hcc
    have h1 : s.splitOnP (fun b => b == comma)
        = s.takeWhile (fun b => b != comma) :: rest.splitOnP (fun b => b == comma) := by
      have := List.splitOnP_first (fun b => b == comma) _ htok comma (by simp) rest
      rw [← hd, hsplit] at this
      exact this
    have hs2 : (s.takeWhile (fun b => b != comma)).isEmpty = false := by
      cases h : s.takeWhile (fun b => b != comma) with
      | nil => exact absurd h hne
      | cons _ _ => rfl
    unfold tokens List.splitOn
    rw [h1]
    simp [hs2]

theorem strtok_comma_cons (s : List Nat) :
    (strtok (comma :: s)).token = (strtok s).token ∧
    (strtok (comma :: s)).rest = (strtok s).rest := by
  simp only [strtok, List.dropWhile_cons, beq_self_eq_true, if_true]
  split <;> simp
  split <;> simp

/-- `strtok` returns the first comma-separated token and leaves the remaining ones. -/
theorem strtok_tokens (s : List Nat) :
    (strtok s).token = (tokens s).head? ∧ tokens (strtok s).rest = (tokens s).tail := by
  induction s with
  | nil => simp [strtok, tokens_nil]
  | cons c cs ih =>
    by_cases hc : c = comma
    · subst hc
      rw [(strtok_comma_cons cs).1, (strtok_comma_cons cs).2, tokens_comma_cons]
      exact ih
    · have hne : (c :: cs) ≠ [] := by simp
      have hh : (c :: cs).head? ≠ some comma := by simpa using hc
      rw [tokens_of_token_first _ hne hh]
      have hdw : (c :: cs).dropWhile (fun b => b == comma) = c :: cs := by
        simp [List.dropWhile_cons, hc]
      simp only [strtok, hdw]
      rw [if_neg (by simp)]
      cases hd : (c :: cs).dropWhile (fun b => b != comma) with
      | nil => simp [tokens_nil]
      | cons x rest => simp

/-- The token that `UartEventHandler` reads is the fourth comma-separated token. -/
theorem fourthToken_eq (s : List Nat) : (fourthToken s).1 = (tokens s)[3]? := by
  simp only [fourthToken]
  rw [(strtok_tokens _).1, (strtok_tokens _).2, (strtok_tokens _).2, (strtok_tokens _).2]
  rcases tokens s with _ | ⟨a, _ | ⟨b, _ | ⟨c, _ | ⟨d, l⟩⟩⟩⟩ <;> simp

/-- Tokens of a non-empty comma-free text followed by a comma. -/
theorem tokens_append_comma (t rest : List Nat) (ht : t ≠ []) (hc : ∀ b ∈ t, b ≠ comma) :
    tokens (t ++ comma :: rest) = t :: tokens rest := by
  have h1 := List.splitOnP_first (fun b => b == comma) t (by simpa using hc) comma (by simp) rest
  have h2 : t.isEmpty = false := by
    cases t with
    | nil => exact absurd rfl ht
    | cons _ _ => rfl
  unfold tokens List.splitOn
  rw [h1]
  simp [h2]

/-- A non-empty comma-free text is one token. -/
theorem tokens_single (t : List Nat) (ht : t ≠ []) (hc : ∀ b ∈ t, b ≠ comma) :
    tokens t = [t] := by
  have h1 := List.splitOnP_eq_single (fun b => b == comma) t (by simpa using hc)
  have h2 : t.isEmpty = false := by
    cases t with
    | nil => exact absurd rfl ht
    | cons _ _ => rfl
  unfold tokens List.splitOn
  rw [h1]
  simp [h2]

theorem atoiDigits_of_not_digit (acc : Int) (s : List Nat)
    (h : ∀ c, s.head? = some c → isdigit c = false) : atoiDigits acc s = acc := by
  cases s with
  | nil => rfl
  | cons c cs => simp [atoiDigits, h c rfl]

theorem atoiDigits_digits (ds : List Nat) (hds : ∀ d ∈ ds, d < 10) (rest : List Nat) :
    ∀ acc : Int, atoiDigits acc (ds.map (fun d => d + 48) ++ rest)
      = atoiDigits (ds.foldl (fun (a : Int) (d : Nat) => 10 * a + (d : Int)) acc) rest := by
  induction ds with
  | nil => intro acc; rfl
  | cons d ds ih =>
    intro acc
    have hd : d < 10 := hds d (List.mem_cons_self _ _)
    have hdig : isdigit (d + 48) = true := by simp [isdigit]; omega
    rw [List.map_cons, List.cons_append, atoiDigits, if_pos hdig,
      ih (fun x hx => hds x (List.mem_cons_of_mem _ hx)), List.foldl_cons]
    congr 2
    push_cast
    ring

theorem foldr_digits (L : List Nat) :
    L.foldr (fun (d : Nat) (a : Int) => 10 * a + (d : Int)) 0 = ((Nat.ofDigits 10 L : Nat) : Int) := by
  induction L with
  | nil => simp
  | cons d L ih =>
    simp only [List.foldr_cons, ih, Nat.ofDigits_cons]
    push_cast
    ring

/-- `atoi` reads back the decimal text of a number that is followed by a byte other than a
digit (or by nothing). -/
theorem atoi_decimalText (n : Nat) (rest : List Nat)
    (hrest : ∀ c, rest.head? = some c → isdigit c = false) :
    atoi (decimalText n ++ rest) = n := by
  have key : ∀ (c : Nat) (cs : List Nat), isdigit c = true →
      atoi (c :: cs) = atoiDigits 0 (c :: cs) := by
    intro c cs hc
    have h48 : 48 ≤ c ∧ c ≤ 57 := by simpa [isdigit] using hc
    have hsp : isspace c = false := by
      simp [isspace]; omega
    unfold atoi
    rw [List.dropWhile_cons_of_neg (by simp [hsp])]
    split
    · next h => simp at h; omega
    · next h => simp at h; omega
    · rfl
  by_cases h0 : n = 0
  · subst h0
    have : decimalText 0 = [48] := by simp [decimalText]
    rw [this, List.singleton_append, key 48 rest (by decide)]
    simp [atoiDigits, isdigit, atoiDigits_of_not_digit 0 rest hrest]
  · have hdt : decimalText n = (Nat.digits 10 n).reverse.map (fun d => d + 48) := by
      simp [decimalText, h0]
    have hlt : ∀ d ∈ (Nat.digits 10 n).reverse, d < 10 := by
      intro d hd
      exact Nat.digits_lt_base (by norm_num) (List.mem_reverse.mp hd)
    have hne : (Nat.digits 10 n).reverse ≠ [] := by
      simpa using (Nat.digits_ne_nil_iff_ne_zero.mpr h0)
    obtain ⟨d, ds, hds⟩ := List.exists_cons_of_ne_nil hne
    have hdlt : d < 10 := hlt d (by rw [hds]; exact List.mem_cons_self _ _)
    have hstart : decimalText n ++ rest
        = (d + 48) :: (ds.map (fun d => d + 48) ++ rest) := by
      rw [hdt, hds]; rfl
    rw [hstart, key (d + 48) _ (by simp [isdigit]; omega), ← hstart, hdt,
      atoiDigits_digits _ hlt, atoiDigits_of_not_digit _ rest hrest, List.foldl_reverse,
      foldr_digits, Nat.ofDigits_digits]

/-- Without a leading integer `atoi` returns 0. -/
theorem atoi_of_not_integerText (t : List Nat) (h : isIntegerText t = false) : atoi t = 0 := by
  unfold isIntegerText at h
  unfold atoi
  split at h
  · next c cs heq => rw [heq]; simp [atoiDigits, h]
  · next c cs heq => rw [heq]; simp [atoiDigits, h]
  · next c cs hn1 hn2 heq =>
      rw [heq]
      split
      · next cs2 heq2 =>
          cases cs2 with
          | nil => simp [atoiDigits]
          | cons x xs =>
            obtain ⟨hc, hcs⟩ := List.cons.inj heq2
            exact (hn1 x xs hc hcs).elim
      · next cs2 heq2 =>
          cases cs2 with
          | nil => simp [atoiDigits]
          | cons x xs =>
            obtain ⟨hc, hcs⟩ := List.cons.inj heq2
            exact (hn2 x xs hc hcs).elim
      · simp [atoiDigits, h]
  · next heq => rw [heq]; simp [atoiDigits]

/-! ## Lemmas on sequences of records -/

theorem wellFormed_init : GeigerState.init.WellFormed := by
  simp [GeigerState.WellFormed, GeigerState.init]

theorem strtok_length (s : List Nat) :
    (strtok s).scanned.length + (strtok s).rest.length = s.length := by
  have h1 := congrArg List.length (List.takeWhile_append_dropWhile (fun b => b == comma) s)
  have h2 := congrArg List.length (List.takeWhile_append_dropWhile (fun b => b != comma)
    (s.dropWhile (fun b => b == comma)))
  simp only [List.length_append] at h1 h2
  unfold strtok
  simp only
  split
  · simp
  · split
    · simp
    · next x rest heq =>
      rw [heq] at h2
      simp only [List.length_append, List.length_cons, List.length_nil] at h2 ⊢
      omega

theorem fourthToken_length (s : List Nat) : (fourthToken s).2.length = s.length := by
  have h1 := strtok_length s
  have h2 := strtok_length (strtok s).rest
  have h3 := strtok_length (strtok (strtok s).rest).rest
  have h4 := strtok_length (strtok (strtok (strtok s).rest).rest).rest
  simp only [fourthToken, List.length_append]
  omega

theorem deliver_wellFormed (s : GeigerState) (r : List Nat) (hs : s.WellFormed)
    (hlen : r.length < messageBufferSize) : (deliver s r).WellFormed := by
  unfold GeigerState.WellFormed at hs ⊢
  simp only [deliver, List.length_append, List.length_cons, List.length_drop,
    fourthToken_length, hs]
  omega

theorem latch_tally (db : DataBlock) (tok : Option (List Nat)) :
    (latch db tok).cpmMessagesReceived
      = if tok.isSome then (db.cpmMessagesReceived + 1) % 256 else db.cpmMessagesReceived := by
  cases tok <;> simp [latch]

theorem latch_samples (db : DataBlock) (tok : Option (List Nat)) :
    (latch db tok).pressureSamples = db.pressureSamples ∧
    (latch db tok).pressureSamplesReceived = db.pressureSamplesReceived := by
  cases tok <;> simp [latch]

theorem feed_append (s : GeigerState) (a b : List (List Nat)) :
    feed s (a ++ b) = (feed s a).bind fun t => feed t b := by
  induction a generalizing s with
  | nil => rfl
  | cons f fs ih =>
    simp only [List.cons_append, feed]
    cases UartEventHandler s (some f) with
    | none => rfl
    | some t => exact ih t

theorem recordedValues_append (s : GeigerState) (a b : List (List Nat)) :
    recordedValues s (a ++ b)
      = (recordedValues s a).bind fun vs =>
          (feed s a).bind fun t => (recordedValues t b).map fun ws => vs ++ ws := by
  induction a generalizing s with
  | nil => simp [recordedValues, feed]
  | cons f fs ih =>
    rw [List.cons_append]
    simp only [feed, recordedValues]
    cases UartEventHandler s (some f) with
    | none => rfl
    | some t =>
      simp only [ih t]
      cases recordedValues t fs with
      | none => rfl
      | some vs =>
        by_cases hc : t.dataBlock.cpmMessagesReceived = s.dataBlock.cpmMessagesReceived
        · cases feed t fs with
          | none => simp [hc]
          | some u => rcases h : recordedValues u b with _ | ws <;> simp [hc, h]
        · cases feed t fs with
          | none => simp [hc]
          | some u => rcases h : recordedValues u b with _ | ws <;> simp [hc, h]

/-- The values latched while the fragments of the rest of a record arrive. -/
theorem recordedValues_rest (body : List Nat) (hbody : ∀ b ∈ body, b ≠ 0 ∧ b ≠ newline)
    (db : DataBlock) (buf0 : List Nat) :
    ∀ (fs : List (List Nat)) (pre : List Nat), fs ≠ [] → (∀ f ∈ fs, f ≠ []) →
      pre ++ fs.flatten = body ++ [newline] →
      pre.length + fs.flatten.length < messageBufferSize →
      buf0.length = messageBufferSize →
      recordedValues { messageBuffer := pre ++ buf0.drop pre.length,
                       messageBytesReceived := pre.length, dataBlock := db } fs
        = some (recordValue (body ++ [newline])).toList := by
  intro fs
  induction fs with
  | nil => intro pre h; exact absurd rfl h
  | cons f fs ih =>
    intro pre _ hne hcat hcap hbuf
    have hf : f ≠ [] := (hne f (List.mem_cons_self _ _))
    have hne2 : ∀ g ∈ fs, g ≠ [] := fun g hg => hne g (List.mem_cons_of_mem _ hg)
    have hall0 : ∀ b ∈ pre ++ (f :: fs).flatten, b ≠ 0 := by
      intro b hb
      rw [hcat] at hb
      rcases List.mem_append.mp hb with hb | hb
      · exact (hbody b hb).1
      · simp [newline] at hb; omega
    simp only [List.flatten_cons, List.length_append] at hcap hcat hall0
    by_cases hfs : fs = []
    · subst hfs
      simp only [List.flatten_nil, List.append_nil, List.length_nil, Nat.add_zero] at hcat hcap hall0
      have hlast : f.getLast? = some newline := by
        have h1 := congrArg List.getLast? hcat
        rw [List.getLast?_append_of_ne_nil _ hf] at h1
        simpa using h1
      simp only [recordedValues]
      rw [UartEventHandler_complete pre f _ db hf hall0 hlast hcap
        (by simp [hbuf]; omega)]
      simp only [hcat, latch_tally, recordValue, ← fourthToken_eq]
      cases htok : (fourthToken (body ++ [newline])).1 with
      | none => simp
      | some t =>
        have : (db.cpmMessagesReceived + 1) % 256 ≠ db.cpmMessagesReceived := by omega
        simp [this, latch]
    · have hfl : fs.flatten ≠ [] := by
        obtain ⟨g, gs, rfl⟩ := List.exists_cons_of_ne_nil hfs
        have := hne2 g (List.mem_cons_self _ _)
        simp [this]
      have hlast : f.getLast? ≠ some newline := by
        intro hl
        have hmem : newline ∈ body := by
          have hl2 : newline ∈ f := List.mem_of_getLast?_eq_some hl
          have h2 : pre ++ f ++ fs.flatten.dropLast ++ [fs.flatten.getLast hfl]
              = body ++ [newline] := by
            rw [List.append_assoc (pre ++ f), List.dropLast_append_getLast, List.append_assoc]
            exact hcat
          have h3 := List.append_inj_left' h2 rfl
          rw [← h3]
          simp [hl2]
        exact (hbody _ hmem).2 rfl
      simp only [recordedValues]
      rw [UartEventHandler_pending pre f _ db hf
        (fun b hb => hall0 b (by simp [hb])) hlast (by omega)]
      have := ih (pre ++ f) hfs hne2 (by simpa using hcat) (by rw [List.length_append]; omega) hbuf
      simp only [List.length_append, List.drop_drop] at this ⊢
      rw [this]
      simp

/-- The values latched while any cutting of a record arrives at an empty pending buffer. -/
theorem recordedValues_cutting (r : List Nat) (s : GeigerState) (fs : List (List Nat))
    (hr : IsRecord r) (hlen : r.length < messageBufferSize) (hs : s.WellFormed)
    (hempty : s.messageBytesReceived = 0) (hcut : IsCutting fs r) :
    recordedValues s fs = some (recordValue r).toList := by
  obtain ⟨body, rfl, hbody⟩ := hr
  obtain ⟨hflat, hfrag⟩ := hcut
  obtain ⟨buf, n, db⟩ := s
  simp only at hempty
  subst hempty
  have hne : fs ≠ [] := by
    rintro rfl
    simp at hflat
  have := recordedValues_rest body hbody db buf fs [] hne (fun f hf => (hfrag f hf).1)
    (by simpa using hflat) (by simpa [hflat] using hlen) hs
  simpa using this

/-- Records that arrive one after the other, each in a cutting of its own. -/
theorem feed_records (rs : List (List Nat)) (css : List (List (List Nat)))
    (hcut : List.Forall₂ IsCutting css rs) :
    ∀ s : GeigerState, s.WellFormed → s.messageBytesReceived = 0 →
      (∀ r ∈ rs, IsRecord r ∧ r.length < messageBufferSize) →
      feed s css.flatten = some (rs.foldl deliver s) ∧
      recordedValues s css.flatten = some (rs.filterMap recordValue) := by
  induction hcut with
  | nil => intro s _ _ _; simp [feed, recordedValues]
  | @cons fs r css rs h _ ih =>
    intro s hs hempty hrec
    have hr := hrec r (List.mem_cons_self _ _)
    have h1 := feed_cutting r s fs hr.1 hr.2 hs hempty h
    have h2 := recordedValues_cutting r s fs hr.1 hr.2 hs hempty h
    have ih2 := ih (deliver s r) (deliver_wellFormed s r hs hr.2) rfl
      (fun x hx => hrec x (List.mem_cons_of_mem _ hx))
    constructor
    · rw [List.flatten_cons, feed_append, h1]
      exact ih2.1
    · rw [List.flatten_cons, recordedValues_append, h2, h1]
      simp only [Option.bind, ih2.2, Option.map]
      rcases hv : recordValue r with _ | v <;> simp [List.filterMap_cons, hv]

/-! ## Lemmas on the tally -/

theorem deliver_tally (s : GeigerState) (r : List Nat) (h : 4 ≤ (tokens r).length) :
    (deliver s r).dataBlock.cpmMessagesReceived = (s.dataBlock.cpmMessagesReceived + 1) % 256 := by
  have : ((fourthToken r).1).isSome = true := by
    rw [fourthToken_eq]
    rcases htk : tokens r with _ | ⟨a, _ | ⟨b, _ | ⟨c, _ | ⟨d, l⟩⟩⟩⟩ <;> simp [htk] at h ⊢
  simp [deliver, latch_tally, this]

theorem deliver_samples (s : GeigerState) (r : List Nat) :
    (deliver s r).dataBlock.pressureSamplesReceived = s.dataBlock.pressureSamplesReceived := by
  simp [deliver, latch_samples]

theorem foldl_deliver_tally (rs : List (List Nat)) :
    ∀ s : GeigerState, (∀ r ∈ rs, 4 ≤ (tokens r).length) →
      s.dataBlock.cpmMessagesReceived < 256 →
      (rs.foldl deliver s).dataBlock.cpmMessagesReceived
        = (s.dataBlock.cpmMessagesReceived + rs.length) % 256 ∧
      (rs.foldl deliver s).dataBlock.pressureSamplesReceived
        = s.dataBlock.pressureSamplesReceived := by
  induction rs with
  | nil => intro s _ h; simp; omega
  | cons r rs ih =>
    intro s hrec hlt
    have h4 := hrec r (List.mem_cons_self _ _)
    have ht := deliver_tally s r h4
    have := ih (deliver s r) (fun x hx => hrec x (List.mem_cons_of_mem _ hx))
      (by rw [ht]; omega)
    simp only [List.foldl_cons, List.length_cons, this, ht, deliver_samples]
    constructor
    · omega
    · trivial

/-- The count-rate part of a rollover whose timer event was consumed. -/
theorem rollover_cpm (db : DataBlock) (h : db.pressureSamplesReceived ≤ pressureSamplesSize) :
    ∃ db1 u, UploadTimerEventHandler db true = some (db1, u) ∧
      u.cpm = if 59 ≤ db.cpmMessagesReceived then some db.cpm else none := by
  unfold UploadTimerEventHandler
  simp only [Bool.not_true, Bool.false_eq_true, if_false]
  split
  · rw [if_neg (by omega)]
    exact ⟨_, _, rfl, rfl⟩
  · exact ⟨_, _, rfl, rfl⟩

/-! ## Lemmas on count-rate records -/

theorem decimalText_bytes (n : Nat) : ∀ b ∈ decimalText n, 48 ≤ b ∧ b ≤ 57 := by
  intro b hb
  unfold decimalText at hb
  split at hb
  · simp at hb; omega
  · simp only [List.mem_map, List.mem_reverse] at hb
    obtain ⟨d, hd, rfl⟩ := hb
    have := Nat.digits_lt_base (by norm_num : 1 < 10) hd
    omega

theorem decimalText_ne_nil (n : Nat) : decimalText n ≠ [] := by
  unfold decimalText
  split
  · simp
  · next h => simpa using (Nat.digits_ne_nil_iff_ne_zero.mpr h)

theorem tokens_countRecord (t1 t2 t3 : List Nat) (n : Nat)
    (h1 : t1 ≠ []) (h2 : t2 ≠ []) (h3 : t3 ≠ [])
    (hc : ∀ b ∈ t1 ++ t2 ++ t3, b ≠ comma) :
    tokens (countRecord t1 t2 t3 n) = [t1, t2, t3, decimalText n ++ [newline]] := by
  unfold countRecord
  rw [tokens_append_comma t1 _ h1 (fun b hb => hc b (by simp [hb])),
    tokens_append_comma t2 _ h2 (fun b hb => hc b (by simp [hb])),
    tokens_append_comma t3 _ h3 (fun b hb => hc b (by simp [hb])),
    tokens_single _ (by simp)]
  intro b hb
  rcases List.mem_append.mp hb with hb | hb
  · have := decimalText_bytes n b hb
    simp only [comma]; omega
  · simp [newline, comma] at hb ⊢; omega

theorem isRecord_countRecord (t1 t2 t3 : List Nat) (n : Nat)
    (hc : ∀ b ∈ t1 ++ t2 ++ t3, b ≠ 0 ∧ b ≠ newline) :
    IsRecord (countRecord t1 t2 t3 n) := by
  refine ⟨t1 ++ comma :: (t2 ++ comma :: (t3 ++ comma :: decimalText n)), ?_, ?_⟩
  · simp [countRecord]
  · intro b hb
    simp only [List.mem_append, List.mem_cons] at hb
    have hcomma : comma ≠ 0 ∧ comma ≠ newline := by decide
    rcases hb with hb | rfl | hb | rfl | hb | rfl | hb
    · exact hc b (by simp [hb])
    · exact hcomma
    · exact hc b (by simp [hb])
    · exact hcomma
    · exact hc b (by simp [hb])
    · exact hcomma
    · have := decimalText_bytes n b hb
      simp only [newline]; omega

theorem toUInt8_natCast (n : Nat) : toUInt8 (n : Int) = n % 256 := by
  unfold toUInt8
  omega

theorem isCutting_whole (r : List Nat) (hne : r ≠ []) (hfit : r.length ≤ receiveBufferSize) :
    IsCutting [r] r :=
  ⟨by simp, by simpa using ⟨hne, hfit⟩⟩

theorem isRecord_ne_nil (r : List Nat) (hr : IsRecord r) : r ≠ [] := by
  obtain ⟨body, rfl, _⟩ := hr
  simp

theorem forall₂_whole (rs : List (List Nat))
    (h : ∀ r ∈ rs, IsRecord r ∧ r.length ≤ receiveBufferSize) :
    List.Forall₂ IsCutting (rs.map fun r => [r]) rs := by
  induction rs with
  | nil => exact List.Forall₂.nil
  | cons r rs ih =>
    have hr := h r (List.mem_cons_self _ _)
    exact List.Forall₂.cons (isCutting_whole r (isRecord_ne_nil r hr.1) hr.2)
      (ih (fun x hx => h x (List.mem_cons_of_mem _ hx)))

theorem flatten_map_singleton (rs : List (List Nat)) : (rs.map fun r => [r]).flatten = rs := by
  induction rs with
  | nil => rfl
  | cons r rs ih => simp [ih]

/-! ## Lemmas on the sort of the rollover -/

theorem compLe_iff (a b : Nat) : compLe a b ↔ signedLe a b := by
  unfold compLe qsort_comp signedLe
  simp only
  split
  · constructor
    · intro h; omega
    · intro h; omega
  · split
    · constructor
      · intro _; omega
      · intro _; omega
    · constructor
      · intro _; omega
      · intro _; omega

theorem toInt32_injOn (a b : Nat) (ha : a < 4294967296) (hb : b < 4294967296)
    (h : toInt32 a = toInt32 b) : a = b := by
  unfold toInt32 at h
  omega

theorem map_toInt32_inj : ∀ (l₁ l₂ : List Nat), (∀ x ∈ l₁, x < 4294967296) →
    (∀ x ∈ l₂, x < 4294967296) →
    l₁.map (fun x : Nat => toInt32 x) = l₂.map (fun x : Nat => toInt32 x) → l₁ = l₂
  | [], [], _, _, _ => rfl
  | [], _ :: _, _, _, h => by simp at h
  | _ :: _, [], _, _, h => by simp at h
  | a :: l₁, b :: l₂, h₁, h₂, h => by
    simp only [List.map_cons, List.cons.injEq] at h
    have hab := toInt32_injOn a b (h₁ a (List.mem_cons_self _ _)) (h₂ b (List.mem_cons_self _ _)) h.1
    have := map_toInt32_inj l₁ l₂ (fun x hx => h₁ x (List.mem_cons_of_mem _ hx))
      (fun x hx => h₂ x (List.mem_cons_of_mem _ hx)) h.2
    rw [hab, this]

theorem sorted_signedLe_iff (l : List Nat) :
    l.Sorted signedLe ↔ (l.map (fun x : Nat => toInt32 x)).Sorted (· ≤ ·) := by
  unfold List.Sorted
  rw [List.pairwise_map]
  rfl

theorem sorted_compLe_iff (l : List Nat) : l.Sorted compLe ↔ l.Sorted signedLe :=
  List.Pairwise.iff (fun {a b} => compLe_iff a b)

theorem qsort_perm (l : List Nat) : (qsort l).Perm l := List.perm_insertionSort compLe l

theorem qsort_sorted (l : List Nat) : (qsort l).Sorted compLe := by
  haveI : IsTotal Nat compLe :=
    ⟨fun a b => by rw [compLe_iff, compLe_iff]; exact le_total (toInt32 a) (toInt32 b)⟩
  haveI : IsTrans Nat compLe :=
    ⟨fun a b c => by
      rw [compLe_iff, compLe_iff, compLe_iff]
      exact fun h₁ h₂ => Int.le_trans h₁ h₂⟩
  exact List.sorted_insertionSort compLe l

/-- Every rearrangement of 32-bit values that is ascending for `qsort_comp` is the list
that `qsort` computes: the outcome does not depend on the sorting algorithm. -/
theorem qsort_unique (l w : List Nat) (hl : ∀ x ∈ l, x < 4294967296) (hp : w.Perm l)
    (hs : w.Sorted signedLe) : qsort l = w := by
  have h1 : ((qsort l).map (fun x : Nat => toInt32 x)).Sorted (· ≤ ·) :=
    (sorted_signedLe_iff _).mp ((sorted_compLe_iff _).mp (qsort_sorted l))
  have h2 : (w.map (fun x : Nat => toInt32 x)).Sorted (· ≤ ·) :=
    (sorted_signedLe_iff _).mp hs
  have h3 : ((qsort l).map (fun x : Nat => toInt32 x)).Perm (w.map (fun x : Nat => toInt32 x)) :=
    ((qsort_perm l).trans hp.symm).map _
  have h4 := List.eq_of_perm_of_sorted h3 h1 h2
  exact map_toInt32_inj _ _ (fun x hx => hl x ((qsort_perm l).mem_iff.mp hx))
    (fun x hx => hl x (hp.mem_iff.mp hx)) h4

/-! ## Lemmas on the window after a rollover -/

theorem take_succ_set (l : List Nat) (n x : Nat) (h : n < l.length) :
    (l.set n x).take (n + 1) = l.take n ++ [x] := by
  induction l generalizing n with
  | nil => simp at h
  | cons a l ih =>
    cases n with
    | zero => simp
    | succ n =>
      simp only [List.length_cons] at h
      simp [ih n (by omega)]

theorem sameWindow_latch (a b : DataBlock) (t : List Nat) (h : SameWindow a b) :
    SameWindow (latch a (some t)) (latch b (some t)) := by
  obtain ⟨h1, h2, h3, h4, h5, _⟩ := h
  refine ⟨?_, h2, h3, h4, h5, Or.inl rfl⟩
  simp [latch, h1]

theorem sameWindow_tick (a b : DataBlock) (c : Bool) (r : Option Int) (e : Int)
    (h : SameWindow a b) :
    (I2cTimerEventHandler a c r e = none ∧ I2cTimerEventHandler b c r e = none) ∨
    ∃ a1 b1, I2cTimerEventHandler a c r e = some a1 ∧ I2cTimerEventHandler b c r e = some b1 ∧
      SameWindow a1 b1 := by
  obtain ⟨cpmA, tally, sa, n⟩ := a
  obtain ⟨cpmB, tallyB, sb, nB⟩ := b
  obtain ⟨h1, h2, h3, h4, h5, h6⟩ := h
  simp only at h1 h2 h3 h4 h5 h6
  subst h1 h2
  unfold I2cTimerEventHandler
  cases c with
  | false => exact Or.inr ⟨_, _, rfl, rfl, rfl, rfl, h3, h4, h5, h6⟩
  | true =>
    simp only [Bool.not_true, Bool.false_eq_true, if_false]
    cases r with
    | none => exact Or.inl ⟨rfl, rfl⟩
    | some r =>
      simp only
      by_cases he : e = EBUSY ∨ e = ENXIO
      · simp only [if_pos he]
        exact Or.inr ⟨_, _, rfl, rfl, rfl, rfl, h3, h4, h5, h6⟩
      · simp only [if_neg he]
        by_cases hcap : pressureSamplesSize ≤ n
        · simp only [if_pos hcap]
          exact Or.inl ⟨trivial, trivial⟩
        · simp only [if_neg hcap]
          refine Or.inr ⟨_, _, rfl, rfl, rfl, rfl, ?_, ?_, ?_, h6⟩
          · show (sa.set n _).length = pressureSamplesSize
            rw [List.length_set, h3]
          · show (sb.set n _).length = pressureSamplesSize
            rw [List.length_set, h4]
          · show List.take ((n + 1) % 4294967296) (sa.set n _)
              = List.take ((n + 1) % 4294967296) (sb.set n _)
            have hlt : n < 1024 := by
              simp only [pressureSamplesSize] at hcap; omega
            have hmod : (n + 1) % 4294967296 = n + 1 := by omega
            simp only [hmod]
            rw [take_succ_set _ _ _ (by rw [h3]; exact hlt),
              take_succ_set _ _ _ (by rw [h4]; exact hlt), h5]

theorem qsort_length (l : List Nat) : (qsort l).length = l.length :=
  (qsort_perm l).length_eq

theorem sameWindow_rollover (a b : DataBlock) (c : Bool) (h : SameWindow a b) :
    (UploadTimerEventHandler a c = none ∧ UploadTimerEventHandler b c = none) ∨
    ∃ a1 b1 u, UploadTimerEventHandler a c = some (a1, u) ∧
      UploadTimerEventHandler b c = some (b1, u) ∧ SameWindow a1 b1 := by
  obtain ⟨cpmA, tally, sa, n⟩ := a
  obtain ⟨cpmB, tallyB, sb, nB⟩ := b
  obtain ⟨h1, h2, h3, h4, h5, h6⟩ := h
  simp only at h1 h2 h3 h4 h5 h6
  subst h1 h2
  unfold UploadTimerEventHandler
  cases c with
  | false => exact Or.inr ⟨_, _, _, rfl, rfl, rfl, rfl, h3, h4, h5, h6⟩
  | true =>
    simp only [Bool.not_true, Bool.false_eq_true, if_false]
    have hcpm : (if 59 ≤ tally then some cpmA else none)
        = (if 59 ≤ tally then some cpmB else none) := by
      by_cases h59 : 59 ≤ tally
      · rcases h6 with h6 | h6
        · rw [h6]
        · omega
      · rw [if_neg h59, if_neg h59]
    by_cases h590 : 590 ≤ n
    · simp only [if_pos h590]
      by_cases hcap : pressureSamplesSize < n
      · simp only [if_pos hcap]
        exact Or.inl ⟨trivial, trivial⟩
      · simp only [if_neg hcap]
        have hle : n ≤ 1024 := by
          simp only [pressureSamplesSize] at hcap; omega
        have hidx : n / 2 < (qsort (sa.take n)).length := by
          rw [qsort_length, List.length_take, h3]
          simp only [pressureSamplesSize]
          omega
        have hpa : (qsort (sa.take n) ++ sa.drop n)[n / 2]?
            = (qsort (sb.take n) ++ sb.drop n)[n / 2]? := by
          rw [List.getElem?_append_left hidx, ← h5, List.getElem?_append_left hidx]
        have hla : (qsort (sa.take n) ++ sa.drop n).length = pressureSamplesSize := by
          rw [List.length_append, qsort_length, ← List.length_append, List.take_append_drop, h3]
        have hlb : (qsort (sb.take n) ++ sb.drop n).length = pressureSamplesSize := by
          rw [List.length_append, qsort_length, ← List.length_append, List.take_append_drop, h4]
        rw [hcpm, hpa]
        exact Or.inr ⟨_, _, _, rfl, rfl, rfl, rfl, hla, hlb, rfl, Or.inr rfl⟩
    · simp only [if_neg h590]
      rw [hcpm]
      exact Or.inr ⟨_, _, _, rfl, rfl, rfl, rfl, h3, h4, rfl, Or.inr rfl⟩

/-- Data blocks that agree on the current window produce the same uploads. -/
theorem uploads_sameWindow (es : List AggregationEvent) :
    ∀ a b : DataBlock, SameWindow a b → uploads a es = uploads b es := by
  induction es with
  | nil => intro a b _; rfl
  | cons ev es ih =>
    intro a b h
    cases ev with
    | message t =>
      simp only [uploads]
      exact ih _ _ (sameWindow_latch a b t h)
    | tick c r e =>
      simp only [uploads]
      rcases sameWindow_tick a b c r e h with ⟨ha, hb⟩ | ⟨a1, b1, ha, hb, hab⟩
      · rw [ha, hb]
      · rw [ha, hb]
        exact ih _ _ hab
    | rollover c =>
      simp only [uploads]
      rcases sameWindow_rollover a b c h with ⟨ha, hb⟩ | ⟨a1, b1, u, ha, hb, hab⟩
      · rw [ha, hb]
      · rw [ha, hb]
        simp only [ih _ _ hab]

/-! ## Lemmas on the sensor driver -/

theorem computeB5_eq_none_iff (c : Calibration) (UT : Int) :
    computeB5 c UT = none ↔ computeB5Divisor c UT = 0 := by
  unfold computeB5 computeB5Divisor
  simp only
  split <;> simp_all

theorem computeB5Divisor_zero (c : Calibration) (UT : Int) (h5 : c.ac5 = 0) (hd : c.md = 0) :
    computeB5Divisor c UT = 0 := by
  unfold computeB5Divisor
  rw [h5, hd, Int.mul_zero]
  decide

theorem pressureFromRaw_zero (c : Calibration) (os : Nat) (UT UP : Int)
    (h5 : c.ac5 = 0) (hd : c.md = 0) : pressureFromRaw c os UT UP = none := by
  have := (computeB5_eq_none_iff c UT).mpr (computeB5Divisor_zero c UT h5 hd)
  unfold pressureFromRaw
  rw [this]

theorem bmp180_readPressure_zero (s : Bmp180State) (bus : PressureBus)
    (h5 : s.calibration.ac5 = 0) (hd : s.calibration.md = 0) :
    (bmp180_readPressure s bus).1 = none := by
  unfold bmp180_readPressure
  simp only
  split
  · rfl
  · exact pressureFromRaw_zero _ _ _ _ h5 hd

/-- A start-up that returns `false` has left the calibration as it was. -/
theorem bmp180_begin_false (s : Bmp180State) (mode : Nat) (bus : BeginBus)
    (h : (bmp180_begin s mode bus).1 = false) :
    (bmp180_begin s mode bus).2.calibration = s.calibration := by
  unfold bmp180_begin at h ⊢
  simp only at h ⊢
  split
  · rfl
  · split
    · rfl
    · split
      · rfl
      · split
        · rfl
        · next hid =>
          rw [if_neg hid] at h
          simp_all

theorem bmp180_begin_oversampling (s : Bmp180State) (mode : Nat) (bus : BeginBus) :
    (bmp180_begin s mode bus).2.oversampling = min mode 3 := by
  have hmin : (if BMP180_ULTRAHIGHRES < mode then BMP180_ULTRAHIGHRES else mode) = min mode 3 := by
    unfold BMP180_ULTRAHIGHRES
    split <;> omega
  unfold bmp180_begin
  simp only [hmin]
  split
  · rfl
  · split
    · rfl
    · split
      · rfl
      · split <;> rfl

theorem read16_lt (errno : Int) (o : BusOutcome (Nat × Nat)) : (read16 errno o).1 < 65536 := by
  unfold read16
  split
  · exact Nat.mod_lt _ (by decide)
  · show 0 < 65536
    decide

theorem read8_lt (errno : Int) (o : BusOutcome Nat) : (read8 errno o).1 < 256 := by
  unfold read8
  split
  · exact Nat.mod_lt _ (by decide)
  · show 0 < 256
    decide

theorem assembleRawPressure_spec (os w x : Nat) (hos : os ≤ 3) (hw : w < 65536) (hx : x < 256) :
    assembleRawPressure os w x = some (((w <<< 8) ||| x) >>> (8 - os)) ∧
    ((w <<< 8) ||| x) >>> (8 - os) < 2 ^ (16 + os) := by
  have hshl : w <<< 8 < 2 ^ 24 := by
    rw [Nat.shiftLeft_eq]; omega
  have hlor : (w <<< 8) ||| x < 2 ^ 24 := Nat.or_lt_two_pow hshl (by omega)
  constructor
  · unfold assembleRawPressure
    simp only
    rw [if_neg (by omega), Nat.mod_eq_of_lt (by omega)]
  · rw [Nat.shiftRight_eq_div_pow]
    apply Nat.div_lt_of_lt_mul
    rw [← Nat.pow_add]
    have : 8 - os + (16 + os) = 24 := by omega
    rw [this]
    exact hlor

/-! ## Lemmas on the terminator and on successful reads -/

theorem read16_ok (errno : Int) (b0 b1 : Nat) (h0 : b0 < 256) (h1 : b1 < 256) :
    read16 errno (BusOutcome.ok (b0, b1)) = (b0 * 256 + b1, errno) := by
  have h := Nat.mul_add_lt_is_or (show b1 < 2 ^ 8 by omega) b0
  have hval : b1 ||| b0 <<< 8 = b0 * 256 + b1 := by
    rw [Nat.or_comm, Nat.shiftLeft_eq, Nat.mul_comm b0 (2 ^ 8), ← h]
  unfold read16
  simp only [Nat.mod_eq_of_lt h0, Nat.mod_eq_of_lt h1, hval]
  rw [Nat.mod_eq_of_lt (by omega)]

theorem read8_ok (errno : Int) (x : Nat) (hx : x < 256) :
    read8 errno (BusOutcome.ok x) = (x, errno) := by
  unfold read8
  simp only [Nat.mod_eq_of_lt hx]

/-! ## Theorems -/

/-- C1: for the datasheet worked example (UT = 27898, UP = 23843, the datasheet calibration,
oversampling mode 0) the compensation arithmetic of `bmp180_readPressure` returns exactly
69964 Pa and the temperature computation `(B5 + 8) >> 4` is exactly 150 tenths of a degree. -/
theorem C1_datasheet_example :
    pressureFromRaw datasheetCalibration 0 27898 23843 = some 69964 ∧
    temperatureTenths datasheetCalibration 27898 = some 150 := by
  constructor <;> decide

/-! ### C2: the median of the rollover -/

/-- C2 (amended): at a rollover whose timer event was consumed, a window of `n ≥ 590`
samples (at most the 1024 the buffer holds) gives as pressure the element at index `n / 2`
of the samples in ascending order of their values read as signed 32-bit integers, which is
the order `qsort_comp` imposes; `w` is any such arrangement of the window, so the result
depends neither on the order of arrival nor on the sorting algorithm. A window of at most
589 samples gives no pressure. -/
theorem C2_rollover_median_signed (db : DataBlock) (w : List Nat)
    (hlen : db.pressureSamples.length = pressureSamplesSize)
    (hrange : ∀ x ∈ db.pressureSamples, x < 4294967296)
    (hn : db.pressureSamplesReceived ≤ pressureSamplesSize)
    (hperm : w.Perm (db.pressureSamples.take db.pressureSamplesReceived))
    (hsorted : w.Sorted signedLe) :
    ∃ db1 u, UploadTimerEventHandler db true = some (db1, u) ∧
      (590 ≤ db.pressureSamplesReceived →
        u.pressure = w[db.pressureSamplesReceived / 2]? ∧ u.pressure.isSome = true) ∧
      (db.pressureSamplesReceived ≤ 589 → u.pressure = none) := by
  have hq := qsort_unique (db.pressureSamples.take db.pressureSamplesReceived) w
    (fun x hx => hrange x (List.mem_of_mem_take hx)) hperm hsorted
  have hwlen : w.length = db.pressureSamplesReceived := by
    rw [hperm.length_eq, List.length_take, hlen]
    omega
  unfold UploadTimerEventHandler
  simp only [Bool.not_true, Bool.false_eq_true, if_false]
  by_cases h590 : 590 ≤ db.pressureSamplesReceived
  · rw [if_pos h590, if_neg (by omega)]
    refine ⟨_, _, rfl, ?_, ?_⟩
    · intro _
      have hidx : db.pressureSamplesReceived / 2 < w.length := by omega
      simp only [hq]
      rw [List.getElem?_append_left hidx]
      exact ⟨rfl, by simp [hidx]⟩
    · intro h; omega
  · rw [if_neg h590]
    exact ⟨_, _, rfl, fun h => absurd h h590, fun _ => rfl⟩

/-- Witness of C2: the 590 samples 100000 .. 100589, received in descending order, give the
median 100295. -/
theorem C2_rollover_median_signed_witness :
    ∃ db1 u, UploadTimerEventHandler rampWindow true = some (db1, u) ∧
      u.pressure = some 100295 := by
  obtain ⟨db1, u, h, hmed, _⟩ := C2_rollover_median_signed rampWindow (List.range' 100000 590)
    (by
      show ((List.range' 100000 590).reverse ++ List.replicate 434 0).length = 1024
      rw [List.length_append, List.length_reverse, List.length_range', List.length_replicate])
    (by
      intro x hx
      simp only [rampWindow, List.mem_append, List.mem_reverse, List.mem_range',
        List.mem_replicate] at hx
      omega)
    (by decide)
    (by
      have : rampWindow.pressureSamples.take rampWindow.pressureSamplesReceived
          = (List.range' 100000 590).reverse :=
        List.take_left' (by rw [List.length_reverse, List.length_range']; rfl)
      rw [this]
      exact (List.reverse_perm _).symm)
    (by
      refine (List.pairwise_lt_range' 100000 590).imp_of_mem ?_
      intro a b ha hb hab
      simp only [List.mem_range'] at ha hb
      unfold signedLe toInt32
      omega)
  exact ⟨db1, u, h, by
    rw [(hmed (by decide)).1]
    exact List.getElem?_range' 100000 1 (by decide : 590 / 2 < 590)⟩

set_option maxRecDepth 1000000 in
/-- Counterexample to C2 as stated: for the window `wrapWindow` the rollover gives 5, the
median in signed order, while the element at index 295 in ascending unsigned order is 7. -/
theorem C2_unsigned_order_counterexample :
    (UploadTimerEventHandler wrapWindow true).map (fun p => p.2.pressure) = some (some 5) ∧
    medianUnsigned (wrapWindow.pressureSamples.take wrapWindow.pressureSamplesReceived)
      = some 7 := by
  constructor <;> decide

/-! ### C3: count-rate validity at the rollover -/

/-- C3 (amended): from a freshly reset window, after `k` complete records that each have a
fourth token (each record cut into fragments in any way), a rollover whose timer event was
consumed emits a count rate if and only if `k mod 256 ≥ 59`, the tally being an 8-bit
counter; the value emitted is the latched one. For `k ≤ 255` this is `k ≥ 59`. -/
theorem C3_rollover_count_rate_mod_256 (rs : List (List Nat)) (css : List (List (List Nat)))
    (s : GeigerState) (hs : s.WellFormed) (hempty : s.messageBytesReceived = 0)
    (hfresh : s.dataBlock.cpmMessagesReceived = 0)
    (hwin : s.dataBlock.pressureSamplesReceived ≤ pressureSamplesSize)
    (hrec : ∀ r ∈ rs, IsRecord r ∧ r.length < messageBufferSize ∧ 4 ≤ (tokens r).length)
    (hcut : List.Forall₂ IsCutting css rs) :
    ∃ t db u, feed s css.flatten = some t ∧
      UploadTimerEventHandler t.dataBlock true = some (db, u) ∧
      (u.cpm.isSome = true ↔ 59 ≤ rs.length % 256) ∧
      (59 ≤ rs.length % 256 → u.cpm = some t.dataBlock.cpm) := by
  have h1 := (feed_records rs css hcut s hs hempty (fun r hr => ⟨(hrec r hr).1, (hrec r hr).2.1⟩)).1
  have h2 := foldl_deliver_tally rs s (fun r hr => (hrec r hr).2.2) (by omega)
  rw [hfresh, Nat.zero_add] at h2
  obtain ⟨db, u, h3, h4⟩ := rollover_cpm (rs.foldl deliver s).dataBlock (by rw [h2.2]; exact hwin)
  refine ⟨_, db, u, h1, h3, ?_, ?_⟩
  · rw [h4, h2.1]
    by_cases h : 59 ≤ rs.length % 256 <;> simp [h]
  · intro h
    rw [h4, h2.1, if_pos h]

/-- Witness of C3: 59 records `a,b,c,42`, each delivered whole, from the initial state. -/
theorem C3_rollover_count_rate_mod_256_witness :
    ∃ t db u, feed GeigerState.init ((List.replicate 59 record42).map fun r => [r]).flatten
        = some t ∧
      UploadTimerEventHandler t.dataBlock true = some (db, u) ∧
      (u.cpm.isSome = true ↔ 59 ≤ (List.replicate 59 record42).length % 256) ∧
      (59 ≤ (List.replicate 59 record42).length % 256 → u.cpm = some t.dataBlock.cpm) :=
  C3_rollover_count_rate_mod_256 (List.replicate 59 record42)
    ((List.replicate 59 record42).map fun r => [r]) GeigerState.init wellFormed_init rfl rfl
    (by decide)
    (fun r hr => by
      rw [List.eq_of_mem_replicate hr]
      exact ⟨⟨[97, 44, 98, 44, 99, 44, 52, 50], rfl, by decide⟩, by decide, by decide⟩)
    (forall₂_whole _ (fun r hr => by
      rw [List.eq_of_mem_replicate hr]
      exact ⟨⟨[97, 44, 98, 44, 99, 44, 52, 50], rfl, by decide⟩, by decide⟩))

set_option maxRecDepth 1000000 in
/-- Counterexample to C3 as stated: after 256 records `a,b,c,42` the tally is back at 0 and
the rollover emits no count rate, although 256 ≥ 59. -/
theorem C3_tally_wraps_counterexample :
    (feed GeigerState.init (List.replicate 256 record42)).map
        (fun t => t.dataBlock.cpmMessagesReceived) = some 0 ∧
    ((feed GeigerState.init (List.replicate 256 record42)).bind
        (fun t => UploadTimerEventHandler t.dataBlock true)).map (fun p => p.2.cpm)
      = some none := by
  constructor <;> decide

/-! ### C4: the latched value -/

/-- C4 (amended): for every `n` that fits in a C `int`, after the record `t1,t2,t3,n` with
non-empty first three tokens has arrived (cut into fragments in any way) at an empty
pending buffer, the latched `cpm` is `n mod 256` and the tally is its old value plus one
modulo 256, both fields being 8 bits wide; so `cpm = n` for `n ≤ 255`. -/
theorem C4_latch_mod_256 (n : Nat) (_hn : n < 2147483648) (t1 t2 t3 : List Nat)
    (h1 : t1 ≠ []) (h2 : t2 ≠ []) (h3 : t3 ≠ [])
    (hc : ∀ b ∈ t1 ++ t2 ++ t3, b ≠ 0 ∧ b ≠ newline ∧ b ≠ comma)
    (s : GeigerState) (hs : s.WellFormed) (hempty : s.messageBytesReceived = 0)
    (fs : List (List Nat)) (hcut : IsCutting fs (countRecord t1 t2 t3 n))
    (hlen : (countRecord t1 t2 t3 n).length < messageBufferSize) :
    ∃ t, feed s fs = some t ∧ t.dataBlock.cpm = n % 256 ∧
      t.dataBlock.cpmMessagesReceived = (s.dataBlock.cpmMessagesReceived + 1) % 256 ∧
      t.messageBytesReceived = 0 := by
  have hrec := isRecord_countRecord t1 t2 t3 n (fun b hb => ⟨(hc b hb).1, (hc b hb).2.1⟩)
  have htok := tokens_countRecord t1 t2 t3 n h1 h2 h3 (fun b hb => (hc b hb).2.2)
  have hfeed := feed_cutting _ s fs hrec hlen hs hempty hcut
  have h4 : (fourthToken (countRecord t1 t2 t3 n)).1 = some (decimalText n ++ [newline]) := by
    rw [fourthToken_eq, htok]; rfl
  refine ⟨_, hfeed, ?_, ?_, rfl⟩
  · simp only [deliver, h4, latch]
    rw [atoi_decimalText n [newline] (by intro c hc; simp at hc; subst hc; decide)]
    exact toUInt8_natCast n
  · simp only [deliver, h4, latch]

/-- Witness of C4: the record `a,b,c,42`, delivered whole to the initial state. -/
theorem C4_latch_mod_256_witness :
    IsCutting [record42] (countRecord [97] [98] [99] 42) ∧
    ∃ t, feed GeigerState.init [record42] = some t ∧ t.dataBlock.cpm = 42 % 256 ∧
      t.dataBlock.cpmMessagesReceived
        = (GeigerState.init.dataBlock.cpmMessagesReceived + 1) % 256 ∧
      t.messageBytesReceived = 0 :=
  have hrec : countRecord [97] [98] [99] 42 = record42 := by
    simp [countRecord, decimalText, record42, comma, newline]
  have hcut : IsCutting [record42] (countRecord [97] [98] [99] 42) := by
    rw [hrec]
    exact ⟨by decide, by decide⟩
  ⟨hcut, C4_latch_mod_256 42 (by decide) [97] [98] [99] (by decide) (by decide) (by decide)
    (by decide) GeigerState.init wellFormed_init rfl [record42] hcut
    (by rw [hrec]; decide)⟩

set_option maxRecDepth 100000 in
/-- Counterexample to C4 as stated: with 255 messages tallied, the record `a,b,c,300`
leaves `cpm = 44`, not 300, and the tally at 0, not at 256. -/
theorem C4_truncation_counterexample :
    (UartEventHandler fullTallyState (some record300)).map
      (fun t => (t.dataBlock.cpm, t.dataBlock.cpmMessagesReceived)) = some (44, 0) := by
  decide

/-! ### C5: fragmentation of one record -/

/-- C5: for every record `r` of at most 1023 bytes and every two cuttings of `r` into
non-empty fragments of at most 256 bytes, feeding either cutting to `UartEventHandler` from
an empty pending buffer ends in one and the same state, with the pending buffer empty
again; when `r` fits in one read, delivering it whole ends in that state too. -/
theorem C5_fragmentation_invariant (r : List Nat) (s : GeigerState)
    (fs₁ fs₂ : List (List Nat)) (hr : IsRecord r) (hlen : r.length ≤ 1023)
    (hs : s.WellFormed) (hempty : s.messageBytesReceived = 0)
    (h₁ : IsCutting fs₁ r) (h₂ : IsCutting fs₂ r) :
    ∃ t, feed s fs₁ = some t ∧ feed s fs₂ = some t ∧ t.messageBytesReceived = 0 ∧
      (r.length ≤ receiveBufferSize → UartEventHandler s (some r) = some t) := by
  have hl : r.length < messageBufferSize := by simp [messageBufferSize]; omega
  refine ⟨deliver s r, feed_cutting r s fs₁ hr hl hs hempty h₁,
    feed_cutting r s fs₂ hr hl hs hempty h₂, rfl, ?_⟩
  intro hfit
  have := feed_cutting r s [r] hr hl hs hempty (isCutting_whole r (isRecord_ne_nil r hr) hfit)
  simp only [feed] at this
  cases h : UartEventHandler s (some r) with
  | none => simp [h] at this
  | some t => simpa [h] using this

/-- Witness of C5: the record `a,b,c,42` cut into three fragments and cut into single
bytes. -/
theorem C5_fragmentation_invariant_witness :
    IsRecord record42 ∧
    ∃ t, feed GeigerState.init [[97, 44, 98], [44, 99, 44, 52], [50, 10]] = some t ∧
      feed GeigerState.init [[97], [44], [98], [44], [99], [44], [52], [50], [10]] = some t ∧
      t.messageBytesReceived = 0 ∧
      (record42.length ≤ receiveBufferSize →
        UartEventHandler GeigerState.init (some record42) = some t) :=
  have hrec : IsRecord record42 := ⟨[97, 44, 98, 44, 99, 44, 52, 50], rfl, by decide⟩
  ⟨hrec, C5_fragmentation_invariant record42 GeigerState.init _ _ hrec (by decide)
    wellFormed_init rfl ⟨by decide, by decide⟩ ⟨by decide, by decide⟩⟩

/-! ### C6: several records in a stream -/

/-- C6 (amended): for every stream of records of at most 256 bytes and every cutting in
which each fragment lies within one record (so that every newline is the last byte of its
fragment), the sequence of count-rate values latched is the same as when every record is
delivered as its own fragment: the values of the records that have a fourth token. -/
theorem C6_record_aligned_fragments (rs : List (List Nat)) (css : List (List (List Nat)))
    (s : GeigerState) (hs : s.WellFormed) (hempty : s.messageBytesReceived = 0)
    (hrec : ∀ r ∈ rs, IsRecord r ∧ r.length ≤ receiveBufferSize)
    (hcut : List.Forall₂ IsCutting css rs) :
    recordedValues s css.flatten = recordedValues s rs ∧
    recordedValues s rs = some (rs.filterMap recordValue) := by
  have hrec2 : ∀ r ∈ rs, IsRecord r ∧ r.length < messageBufferSize := by
    intro r hr
    have := hrec r hr
    refine ⟨this.1, ?_⟩
    have h2 := this.2
    simp only [receiveBufferSize, messageBufferSize] at h2 ⊢
    omega
  have h1 := (feed_records rs css hcut s hs hempty hrec2).2
  have h2 := (feed_records rs _ (forall₂_whole rs hrec) s hs hempty hrec2).2
  rw [flatten_map_singleton] at h2
  exact ⟨h1.trans h2.symm, h2⟩

/-- Witness of C6: the records `a,b,c,1` and `d,e,f,2`, each cut in two. -/
theorem C6_record_aligned_fragments_witness :
    recordedValues GeigerState.init
        [[97, 44, 98], [44, 99, 44, 49, 10], [100, 44, 101, 44, 102, 44], [50, 10]]
      = recordedValues GeigerState.init [recordOne, recordTwo] ∧
    recordedValues GeigerState.init [recordOne, recordTwo]
      = some ([recordOne, recordTwo].filterMap recordValue) :=
  C6_record_aligned_fragments [recordOne, recordTwo]
    [[[97, 44, 98], [44, 99, 44, 49, 10]], [[100, 44, 101, 44, 102, 44], [50, 10]]]
    GeigerState.init wellFormed_init rfl
    (by
      intro r hr
      simp only [List.mem_cons, List.mem_singleton, List.not_mem_nil, or_false] at hr
      rcases hr with rfl | rfl
      · exact ⟨⟨[97, 44, 98, 44, 99, 44, 49], rfl, by decide⟩, by decide⟩
      · exact ⟨⟨[100, 44, 101, 44, 102, 44, 50], rfl, by decide⟩, by decide⟩)
    (List.Forall₂.cons ⟨by decide, by decide⟩
      (List.Forall₂.cons ⟨by decide, by decide⟩ List.Forall₂.nil))

set_option maxRecDepth 100000 in
/-- Counterexample to C6 as stated: the stream of the records `a,b,c,1` and `d,e,f,2`
delivered as one fragment of 16 bytes latches the single value 1, while the two records
delivered as their own fragments latch 1 and then 2. -/
theorem C6_straddling_fragment_counterexample :
    recordedValues GeigerState.init [recordOne ++ recordTwo] = some [1] ∧
    recordedValues GeigerState.init [recordOne, recordTwo] = some [1, 2] := by
  constructor <;> decide

/-! ### C7: capacity of the message buffer -/

set_option maxRecDepth 100000 in
/-- C7 (evaluation of the code at the failing input): four fragments of 256 bytes without
newline fill `messageBuffer` (1024 bytes pending); with a fifth fragment the handler stores
outside the buffer instead of discarding the frame; and 1024 bytes that end in a newline
make it store the terminating NUL at index 1024. -/
theorem C7_message_buffer_overflow :
    (feed GeigerState.init (List.replicate 4 fullFragment)).map
      (fun t => t.messageBytesReceived) = some 1024 ∧
    feed GeigerState.init (List.replicate 5 fullFragment) = none ∧
    feed GeigerState.init
      (List.replicate 3 fullFragment ++ [List.replicate 255 97 ++ [newline]]) = none := by
  refine ⟨?_, ?_, ?_⟩ <;> decide

/-! ### C8: a fourth token that is not an integer -/

/-- C8 (amended): for every record whose fourth token is not the text of an integer,
`UartEventHandler` latches the value 0 and counts the message: `cpm` becomes 0 and the
tally its old value plus one modulo 256. -/
theorem C8_non_integer_latched_as_zero (r : List Nat) (s : GeigerState)
    (fs : List (List Nat)) (t : List Nat) (hr : IsRecord r)
    (hlen : r.length < messageBufferSize) (hs : s.WellFormed)
    (hempty : s.messageBytesReceived = 0) (hcut : IsCutting fs r)
    (htok : (tokens r)[3]? = some t) (hnot : isIntegerText t = false) :
    ∃ s1, feed s fs = some s1 ∧ s1.dataBlock.cpm = 0 ∧
      s1.dataBlock.cpmMessagesReceived = (s.dataBlock.cpmMessagesReceived + 1) % 256 ∧
      s1.messageBytesReceived = 0 := by
  have h4 : (fourthToken r).1 = some t := by rw [fourthToken_eq, htok]
  refine ⟨_, feed_cutting r s fs hr hlen hs hempty hcut, ?_, ?_, rfl⟩
  · simp only [deliver, h4, latch, atoi_of_not_integerText t hnot]
    decide
  · simp only [deliver, h4, latch]

/-- Witness of C8: the record `a,b,c,xyz`, delivered whole with 42 latched and 5 tallied. -/
theorem C8_non_integer_latched_as_zero_witness :
    (tokens recordXyz)[3]? = some [120, 121, 122, 10] ∧
    isIntegerText [120, 121, 122, 10] = false ∧
    ∃ s1, feed latchedState [recordXyz] = some s1 ∧ s1.dataBlock.cpm = 0 ∧
      s1.dataBlock.cpmMessagesReceived
        = (latchedState.dataBlock.cpmMessagesReceived + 1) % 256 ∧
      s1.messageBytesReceived = 0 :=
  ⟨by decide, by decide,
    C8_non_integer_latched_as_zero recordXyz latchedState [recordXyz] [120, 121, 122, 10]
      ⟨[97, 44, 98, 44, 99, 44, 120, 121, 122], rfl, by decide⟩ (by decide)
      wellFormed_init rfl ⟨by decide, by decide⟩ (by decide) (by decide)⟩

set_option maxRecDepth 100000 in
/-- Counterexample to C8 as stated: with 42 latched and 5 messages tallied, the record
`a,b,c,xyz` changes `cpm` to 0 and the tally to 6. -/
theorem C8_non_integer_counterexample :
    (UartEventHandler latchedState (some recordXyz)).map
      (fun t => (t.dataBlock.cpm, t.dataBlock.cpmMessagesReceived)) = some (0, 6) := by
  decide

/-! ### C9: fewer than four tokens -/

set_option maxRecDepth 1000000 in
/-- C10 (evaluation of the code at the failing input): from the initial data block, 1024
successful poll ticks without a rollover fill `pressureSamples`; the next tick stores its
sample at index 1024, outside the array. A rollover whose timer event could not be consumed
does not reset the window, so 600 ticks, such a rollover and 425 more ticks end the same
way. -/
theorem C10_sample_buffer_overflow :
    (runWindow DataBlock.init (List.replicate 1024 goodTick)).map
      (fun db => db.pressureSamplesReceived) = some 1024 ∧
    runWindow DataBlock.init (List.replicate 1025 goodTick) = none ∧
    runWindow DataBlock.init
      (List.replicate 600 goodTick ++ WindowEvent.rollover false :: List.replicate 425 goodTick)
      = none := by
  refine ⟨?_, ?_, ?_⟩ <;> decide

/-! ### C11: the reset at the rollover -/

/-- C11: after a rollover whose timer event was consumed, the message tally and the sample
count are both 0, whether or not a reading was emitted, and nothing of the finished window
reaches the next one: whatever the data blocks `db` and `db'` held before their rollover,
every later sequence of messages, poll ticks and rollovers produces the same uploads from
both. -/
theorem C11_rollover_resets_window (db db' : DataBlock)
    (hlen : db.pressureSamples.length = pressureSamplesSize)
    (hn : db.pressureSamplesReceived ≤ pressureSamplesSize)
    (hlen' : db'.pressureSamples.length = pressureSamplesSize)
    (hn' : db'.pressureSamplesReceived ≤ pressureSamplesSize) :
    ∃ db1 u db1' u', UploadTimerEventHandler db true = some (db1, u) ∧
      UploadTimerEventHandler db' true = some (db1', u') ∧
      db1.cpmMessagesReceived = 0 ∧ db1.pressureSamplesReceived = 0 ∧
      ∀ es, uploads db1 es = uploads db1' es := by
  have key : ∀ d : DataBlock, d.pressureSamples.length = pressureSamplesSize →
      d.pressureSamplesReceived ≤ pressureSamplesSize →
      ∃ d1 v, UploadTimerEventHandler d true = some (d1, v) ∧ d1.cpmMessagesReceived = 0 ∧
        d1.pressureSamplesReceived = 0 ∧ d1.pressureSamples.length = pressureSamplesSize := by
    intro d hl hc
    unfold UploadTimerEventHandler
    simp only [Bool.not_true, Bool.false_eq_true, if_false]
    by_cases h590 : 590 ≤ d.pressureSamplesReceived
    · rw [if_pos h590, if_neg (by omega)]
      refine ⟨_, _, rfl, rfl, rfl, ?_⟩
      show (qsort (d.pressureSamples.take d.pressureSamplesReceived)
        ++ d.pressureSamples.drop d.pressureSamplesReceived).length = pressureSamplesSize
      rw [List.length_append, qsort_length, ← List.length_append, List.take_append_drop, hl]
    · rw [if_neg h590]
      exact ⟨_, _, rfl, rfl, rfl, hl⟩
  obtain ⟨db1, u, h1, ht, hc, hl1⟩ := key db hlen hn
  obtain ⟨db1', u', h1', ht', hc', hl1'⟩ := key db' hlen' hn'
  refine ⟨db1, u, db1', u', h1, h1', ht, hc, fun es => uploads_sameWindow es db1 db1' ?_⟩
  exact ⟨by rw [ht, ht'], by rw [hc, hc'], hl1, hl1', by rw [hc, hc']; rfl, Or.inr ht⟩

/-- Witness of C11: a window of 590 samples, which is emitted, against the initial data
block, which emits nothing. -/
theorem C11_rollover_resets_window_witness :
    ∃ db1 u db1' u', UploadTimerEventHandler wrapWindow true = some (db1, u) ∧
      UploadTimerEventHandler DataBlock.init true = some (db1', u') ∧
      db1.cpmMessagesReceived = 0 ∧ db1.pressureSamplesReceived = 0 ∧
      ∀ es, uploads db1 es = uploads db1' es :=
  C11_rollover_resets_window wrapWindow DataBlock.init
    (by
      show (List.replicate 200 4294967295 ++ List.replicate 200 5 ++ List.replicate 190 7
        ++ List.replicate 434 0).length = 1024
      simp only [List.length_append, List.length_replicate])
    (by decide) (List.length_replicate _ _) (by decide)

/-! ### C12: the result of start-up -/

/-- C12 (evaluation of the code at the failing inputs): when `I2CMaster_Open`,
`I2CMaster_SetBusSpeed` or `I2CMaster_SetTimeout` fails, `bmp180_begin` returns the
enumerator `ExitCode_Init_...` (600, 601, 602) through its `bool` result, which is `true`;
only a wrong identity byte gives `false`. A fully successful start-up gives `true` as
well. -/
theorem C12_begin_reports_success_on_bus_failure :
    (bmp180_begin Bmp180State.init BMP180_ULTRAHIGHRES noBus).1 = true ∧
    (bmp180_begin Bmp180State.init BMP180_ULTRAHIGHRES noBusSpeed).1 = true ∧
    (bmp180_begin Bmp180State.init BMP180_ULTRAHIGHRES noTimeout).1 = true ∧
    (bmp180_begin Bmp180State.init BMP180_ULTRAHIGHRES wrongChip).1 = false ∧
    (bmp180_begin Bmp180State.init BMP180_ULTRAHIGHRES goodChip).1 = true := by
  refine ⟨?_, ?_, ?_, ?_, ?_⟩ <;> decide

/-! ### C13: skipped ticks -/

set_option maxRecDepth 100000 in
/-- C13 (evaluation of the code at the failing inputs): with the sensor running, a tick
whose bus calls all succeed appends its sample; a tick whose bus calls fail with `EBUSY`
is skipped and leaves `errno = EBUSY`; the next tick, whose bus calls all succeed, is
skipped too, because `errno` still holds `EBUSY`; and a tick in which one call reports
`EBUSY` and a later one another error appends its sample. -/
theorem C13_stale_errno_skips_later_ticks :
    (pollTick runningSensor DataBlock.init true noBus goodBus).map
      (fun p => (p.1.errno, p.2.pressureSamplesReceived)) = some (0, 1) ∧
    (pollTick runningSensor DataBlock.init true noBus busyBus).map
      (fun p => (p.1.errno, p.2.pressureSamplesReceived)) = some (16, 0) ∧
    ((pollTick runningSensor DataBlock.init true noBus busyBus).bind
      (fun p => pollTick p.1 p.2 true noBus goodBus)).map
      (fun p => (p.1.errno, p.2.pressureSamplesReceived)) = some (16, 0) ∧
    (pollTick runningSensor DataBlock.init true noBus mixedBus).map
      (fun p => (p.1.errno, p.2.pressureSamplesReceived)) = some (110, 1) := by
  refine ⟨?_, ?_, ?_, ?_⟩ <;> decide

/-! ### C14: oversampling mode and raw pressure -/

/-- C14: for every requested mode `m` in 0..255 and every outcome of the start-up steps,
`bmp180_begin` stores `oversampling = min m 3`; with that mode, whenever the bus delivers
the bytes `b0`, `b1` of the pressure register pair (the 16-bit value `w = b0 * 256 + b1`)
and the extra byte `x`, `bmp180_readRawPressure` returns
`((w << 8) | x) >> (8 - oversampling)`; the shift count lies in 5..8 and the result is
below `2 ^ (16 + oversampling)`, hence below `2 ^ 19`. For every bus, failed reads
included, the result is that expression of the values `read16` and `read8` return. -/
theorem C14_oversampling_clamp_and_raw_pressure (m : Nat) (_hm : m ≤ 255)
    (s : Bmp180State) (startUp : BeginBus) :
    (bmp180_begin s m startUp).2.oversampling = min m 3 ∧
    (∀ (b0 b1 x : Nat) (errno : Int) (bus : PressureBus), b0 < 256 → b1 < 256 → x < 256 →
      bus.pressure = BusOutcome.ok (b0, b1) → bus.pressureLow = BusOutcome.ok x →
      (bmp180_readRawPressure (min m 3) errno bus).1
        = some ((((b0 * 256 + b1) <<< 8) ||| x) >>> (8 - min m 3)) ∧
      5 ≤ 8 - min m 3 ∧ 8 - min m 3 ≤ 8 ∧
      (((b0 * 256 + b1) <<< 8) ||| x) >>> (8 - min m 3) < 2 ^ (16 + min m 3) ∧
      (((b0 * 256 + b1) <<< 8) ||| x) >>> (8 - min m 3) < 2 ^ 19) ∧
    ∀ (errno : Int) (bus : PressureBus),
      (bmp180_readRawPressure (min m 3) errno bus).1
        = some ((((read16 (write8 errno bus.startPressure) bus.pressure).1 <<< 8)
            ||| (read8 (read16 (write8 errno bus.startPressure) bus.pressure).2
                  bus.pressureLow).1) >>> (8 - min m 3)) ∧
      (((read16 (write8 errno bus.startPressure) bus.pressure).1 <<< 8)
            ||| (read8 (read16 (write8 errno bus.startPressure) bus.pressure).2
                  bus.pressureLow).1) >>> (8 - min m 3) < 2 ^ 19 := by
  have hos : min m 3 ≤ 3 := Nat.min_le_right m 3
  have hpow : 2 ^ (16 + min m 3) ≤ 2 ^ 19 := Nat.pow_le_pow_right (by decide) (by omega)
  refine ⟨bmp180_begin_oversampling s m startUp, ?_, ?_⟩
  · intro b0 b1 x errno bus h0 h1 hx hp hl
    have hw : b0 * 256 + b1 < 65536 := by omega
    obtain ⟨h1', h2⟩ := assembleRawPressure_spec (min m 3) (b0 * 256 + b1) x hos hw hx
    refine ⟨?_, by omega, by omega, h2, lt_of_lt_of_le h2 hpow⟩
    unfold bmp180_readRawPressure
    simp only [hp, hl, read16_ok _ b0 b1 h0 h1, read8_ok _ x hx]
    exact h1'
  · intro errno bus
    obtain ⟨h1', h2⟩ := assembleRawPressure_spec (min m 3) _ _ hos
      (read16_lt (write8 errno bus.startPressure) bus.pressure)
      (read8_lt (read16 (write8 errno bus.startPressure) bus.pressure).2 bus.pressureLow)
    exact ⟨h1', lt_of_lt_of_le h2 hpow⟩

/-- Witness of C14: the mode 200 is stored as 3, and with the pressure bytes `0x5D 0x23`
(`w = 23843`) and the extra byte 0 the raw pressure is `(23843 << 8) >> 5 = 190744`. -/
theorem C14_oversampling_clamp_and_raw_pressure_witness :
    (200 : Nat) ≤ 255 ∧
    (bmp180_begin Bmp180State.init 200 goodChip).2.oversampling = 3 ∧
    (bmp180_readRawPressure 3 0 goodBus).1 = some 190744 ∧ 190744 < 2 ^ 19 := by
  obtain ⟨h1, h2, _⟩ :=
    C14_oversampling_clamp_and_raw_pressure 200 (by decide) Bmp180State.init goodChip
  obtain ⟨h3, _, _, _, h4⟩ := h2 93 35 0 0 goodBus (by decide) (by decide) (by decide) rfl rfl
  exact ⟨by decide, h1, h3, h4⟩

/-! ### C15: division by zero with the calibration unset -/

/-- C15: while the calibration coefficients still have their static initial value 0, the
divisor `X1 + md` of `computeB5` is 0 for every raw temperature, so that `computeB5` is
undefined; and a poll tick whose timer event is consumed evaluates `bmp180_readPressure`
whether `initialized` is true or start-up has just failed again, so that the tick reaches
that division. -/
theorem C15_zero_calibration_division (s : Bmp180State) (db : DataBlock)
    (startUp : BeginBus) (bus : PressureBus)
    (hcal : s.calibration = Bmp180State.init.calibration)
    (hfail : s.initialized = true ∨ (bmp180_begin s BMP180_ULTRAHIGHRES startUp).1 = false) :
    (∀ UT, computeB5Divisor s.calibration UT = 0 ∧ computeB5 s.calibration UT = none) ∧
    pollTick s db true startUp bus = none := by
  have h5 : s.calibration.ac5 = 0 := by rw [hcal]; rfl
  have hd : s.calibration.md = 0 := by rw [hcal]; rfl
  constructor
  · intro UT
    have := computeB5Divisor_zero s.calibration UT h5 hd
    exact ⟨this, (computeB5_eq_none_iff _ _).mpr this⟩
  · unfold pollTick
    simp only [Bool.not_true, Bool.false_eq_true, if_false]
    by_cases hi : s.initialized = true
    · rw [if_pos hi, bmp180_readPressure_zero s bus h5 hd]
      rfl
    · rw [if_neg hi]
      have hf : (bmp180_begin s BMP180_ULTRAHIGHRES startUp).1 = false := by
        rcases hfail with h | h
        · exact absurd h hi
        · exact h
      have hc := bmp180_begin_false s BMP180_ULTRAHIGHRES startUp hf
      rw [bmp180_readPressure_zero _ bus (by simp only [hc, h5]) (by simp only [hc, hd])]
      rfl

/-- Witness of C15: the initial state, a start-up that reads a wrong identity byte, and a
bus on which every call of the tick succeeds. -/
theorem C15_zero_calibration_division_witness :
    (bmp180_begin Bmp180State.init BMP180_ULTRAHIGHRES wrongChip).1 = false ∧
    (∀ UT, computeB5Divisor Bmp180State.init.calibration UT = 0 ∧
      computeB5 Bmp180State.init.calibration UT = none) ∧
    pollTick Bmp180State.init DataBlock.init true wrongChip goodBus = none :=
  ⟨by decide,
    C15_zero_calibration_division Bmp180State.init DataBlock.init wrongChip goodBus rfl
      (Or.inr (by decide))⟩

end AzureSphereScience
